import Mathlib

/-
Verification of the faxanatools ROM decoder/encoder against its design
specification.

The Python sources (faxanatools/rom.py, decoder.py, encoder.py,
iscripts.py, messages.py, shops.py) are shallowly embedded below:

* `ROMIOBuf` models the source class `ROMIO`: `io.BytesIO` plus the helpers
  (`peek`, `read_value`, `write_value`, `seek_bank_addr`).  The backing
  buffer is a `List Nat` of byte values; the file pointer is a `Nat`.
* The addressing helpers of `FaxanaduROM` become the pure functions
  `get_bank_for`, `get_bank_addr_for` and `get_rom_offset_for`.
* The entity model (`IScript`, `IScriptLabel`, `IScriptAction`,
  parameter values, `Message`, `Shop`) is embedded with object
  references replaced by names, exactly as the encoder consumes them
  (`param_value.target.name`, `param_value.shop.name`).
* Decoder and encoder are embedded as executable functions; Python
  exceptions (`ValueError`, `ROMPatchError`, assertion failures,
  `KeyError`/`IndexError`) become `Except String`, and the decoder's
  unbounded loops take an explicit fuel argument.
-/

namespace Faxanatools

/-! ## Small dictionary helper

Python `dict` assignment with insertion-order iteration: updating an
existing key keeps its position, a fresh key is appended at the end.
Lookups find the unique binding for a key. -/

def dset {α β : Type} [DecidableEq α] : List (α × β) → α → β → List (α × β)
  | [], k, v => [(k, v)]
  | (k0, v0) :: rest, k, v =>
      if k0 = k then (k0, v) :: rest else (k0, v0) :: dset rest k v

def dget {α β : Type} [DecidableEq α] (m : List (α × β)) (k : α) : Option β :=
  match m with
  | [] => none
  | (k0, v0) :: rest => if k0 = k then some v0 else dget rest k

/-! ## ROMIOBuf: the byte buffer (the rom.py class `ROMIO` over `io.BytesIO`) -/

structure ROMIOBuf where
  data : List Nat
  pos : Nat
deriving Repr, DecidableEq

namespace ROMIOBuf

/-- Model of `fp.seek(p)`. -/
def seek (fp : ROMIOBuf) (p : Nat) : ROMIOBuf := { fp with pos := p }

/-- Model of `fp.read(1)`: one byte if available (advancing the
pointer), `none` at end of buffer (pointer unchanged). -/
def readByte (fp : ROMIOBuf) : Option Nat × ROMIOBuf :=
  if h : fp.pos < fp.data.length then
    (some (fp.data.get ⟨fp.pos, h⟩), { fp with pos := fp.pos + 1 })
  else
    (none, fp)

/-- Model of `int.from_bytes(fp.read(1))`: at end of buffer
`int.from_bytes(b'')` is `0`. -/
def readByte0 (fp : ROMIOBuf) : Nat × ROMIOBuf :=
  match fp.readByte with
  | (some b, fp2) => (b, fp2)
  | (none, fp2) => (0, fp2)

/-- Model of `fp.peek(1)`: the byte at the pointer without advancing,
or `none` at end of buffer (Python returns `b''`). -/
def peek1 (fp : ROMIOBuf) : Option Nat :=
  fp.data.get? fp.pos

/-- Model of writing one byte with `fp.write`: overwrite in place,
zero-filling any gap between the end of the buffer and the pointer
(`io.BytesIO` semantics), then advance the pointer. -/
def writeByte (fp : ROMIOBuf) (b : Nat) : ROMIOBuf :=
  let padded :=
    if fp.data.length < fp.pos then
      fp.data ++ List.replicate (fp.pos - fp.data.length) 0
    else fp.data
  { data := padded.take fp.pos ++ [b] ++ padded.drop (fp.pos + 1),
    pos := fp.pos + 1 }

/-- Model of `fp.write(bs)` for a byte string `bs`. -/
def writeBytes (fp : ROMIOBuf) (bs : List Nat) : ROMIOBuf :=
  bs.foldl writeByte fp

/-- Embedding of `ROMIOBuf.read_value` (rom.py lines 164-186):

    value = 0
    for i in range(size):
        value |= int.from_bytes(self.read(1)) << (8 * i)
    return value
-/
def read_value (fp : ROMIOBuf) (size : Nat) : Nat × ROMIOBuf :=
  (List.range size).foldl
    (fun acc i =>
      let r := acc.2.readByte0
      (acc.1 ||| (r.1 <<< (8 * i)), r.2))
    (0, fp)

/-- Embedding of `ROMIOBuf.write_value` (rom.py lines 188-207):

    for i in range(size):
        self.write(((value >> (i * 8)) & 0xFF).to_bytes())
-/
def write_value (fp : ROMIOBuf) (value : Nat) (size : Nat := 1) : ROMIOBuf :=
  (List.range size).foldl
    (fun fp2 i => fp2.writeByte ((value >>> (i * 8)) &&& 0xFF))
    fp

end ROMIOBuf

/-! ## Addressing (rom.py, `FaxanaduROM` methods, lines 54-105)

The Python methods take `self` but never use it; they are embedded as
plain functions.  All inputs in the valid domain are non-negative, so
`Nat` matches Python's unbounded integers (the one subtraction,
`- 0x8000` in `get_rom_offset_for`, is applied by the program only to
values that are at least `0x8000`). -/

def get_bank_for (rom_addr : Nat) : Nat :=
  (rom_addr &&& 0xFF0000) / 0x4000

def get_bank_addr_for (rom_addr : Nat) : Nat :=
  (rom_addr &&& 0xFFFF) + 0x8000

def get_rom_offset_for (bank : Nat) (addr : Nat) : Nat :=
  (bank * 0x4000) + addr - 0x8000

/-- Model of `ROMIOBuf.seek_bank_addr` (rom.py lines 209-224). -/
def ROMIOBuf.seek_bank_addr (fp : ROMIOBuf) (bank : Nat) (addr : Nat) : ROMIOBuf :=
  fp.seek (get_rom_offset_for bank addr)

/-! ## Arithmetic facts about the masks used by the addressing helpers -/

theorem and_FFFF_eq (o : Nat) : o &&& 0xFFFF = o % 2 ^ 16 := by
  have h : (0xFFFF : Nat) = 2 ^ 16 - 1 := by norm_num
  rw [h, Nat.and_pow_two_sub_one_eq_mod]

theorem and_FF0000_eq (o : Nat) (h : o < 2 ^ 24) :
    o &&& 0xFF0000 = 2 ^ 16 * (o / 2 ^ 16) := by
  have hmask : (0xFF0000 : Nat) = (2 ^ 8 - 1) <<< 16 := by
    rw [Nat.shiftLeft_eq]; norm_num
  have hr : 2 ^ 16 * (o / 2 ^ 16) = (o >>> 16) <<< 16 := by
    rw [Nat.shiftRight_eq_div_pow, Nat.shiftLeft_eq, Nat.mul_comm]
  rw [hmask, hr]
  apply Nat.eq_of_testBit_eq
  intro j
  rw [Nat.testBit_and, Nat.testBit_shiftLeft, Nat.testBit_shiftLeft,
      Nat.testBit_two_pow_sub_one, Nat.testBit_shiftRight]
  by_cases hj : 16 ≤ j
  · by_cases hj24 : j < 24
    · have h1 : j - 16 < 8 := by omega
      have h2 : 16 + (j - 16) = j := by omega
      simp [hj, h1, h2]
    · have h1 : ¬(j - 16 < 8) := by omega
      have h2 : o.testBit j = false := by
        apply Nat.testBit_lt_two_pow
        calc o < 2 ^ 24 := h
          _ ≤ 2 ^ j := Nat.pow_le_pow_right (by norm_num) (by omega)
      simp [hj, h1, h2]
  · simp [hj]

/-- C3: composing the three addressing conversions round-trips on every
linear offset in the valid image range `0 ≤ o < 2^24`:
`get_rom_offset_for (bank := get_bank_for o) (addr := get_bank_addr_for o) = o`. -/
theorem addressing_round_trip (o : Nat) (h : o < 2 ^ 24) :
    get_rom_offset_for (get_bank_for o) (get_bank_addr_for o) = o := by
  unfold get_rom_offset_for get_bank_for get_bank_addr_for
  rw [and_FF0000_eq o h, and_FFFF_eq]
  have h4 : 2 ^ 16 * (o / 2 ^ 16) / 0x4000 = 4 * (o / 2 ^ 16) := by
    have : 2 ^ 16 * (o / 2 ^ 16) = 0x4000 * (4 * (o / 2 ^ 16)) := by ring
    rw [this, Nat.mul_div_cancel_left _ (by norm_num)]
  rw [h4]
  have hdm := Nat.div_add_mod o (2 ^ 16)
  omega

/-- Witness for `addressing_round_trip` at the concrete offset `0x3209B`. -/
theorem addressing_round_trip_witness :
    0x3209B < 2 ^ 24 ∧
      get_rom_offset_for (get_bank_for 0x3209B) (get_bank_addr_for 0x3209B) =
        0x3209B :=
  ⟨by norm_num, addressing_round_trip 0x3209B (by norm_num)⟩

/-! ## Characterization of `read_value` and `write_value` -/

theorem ROMIOBuf.readByte0_in_range (data : List Nat) (p : Nat)
    (h : p < data.length) :
    ROMIOBuf.readByte0 ⟨data, p⟩ = (data.getD p 0, ⟨data, p + 1⟩) := by
  simp [ROMIOBuf.readByte0, ROMIOBuf.readByte, h, List.getD_eq_getElem]

theorem byte_sum_lt (data : List Nat) (p n : Nat)
    (hb : ∀ i, i < n → data.getD (p + i) 0 < 256) :
    (∑ i in Finset.range n, data.getD (p + i) 0 * 2 ^ (8 * i)) <
      2 ^ (8 * n) := by
  induction n with
  | zero => simp
  | succ n ih =>
    rw [Finset.sum_range_succ]
    have hbn : data.getD (p + n) 0 < 256 := hb n (by omega)
    have h1 : data.getD (p + n) 0 * 2 ^ (8 * n) ≤ 255 * 2 ^ (8 * n) :=
      Nat.mul_le_mul_right _ (by omega)
    have h2 : 2 ^ (8 * (n + 1)) = 256 * 2 ^ (8 * n) := by
      rw [Nat.mul_succ, Nat.pow_add]; ring
    have h3 := ih (fun i hi => hb i (by omega))
    omega

theorem ROMIOBuf.read_value_spec (data : List Nat) (p n : Nat)
    (hn : p + n ≤ data.length)
    (hb : ∀ i, i < n → data.getD (p + i) 0 < 256) :
    ROMIOBuf.read_value ⟨data, p⟩ n =
      (∑ i in Finset.range n, data.getD (p + i) 0 * 2 ^ (8 * i),
        ⟨data, p + n⟩) := by
  induction n with
  | zero => simp [ROMIOBuf.read_value]
  | succ n ih =>
    have ihn := ih (by omega) (fun i hi => hb i (by omega))
    unfold ROMIOBuf.read_value at ihn ⊢
    rw [List.range_succ, List.foldl_append, ihn]
    simp only [List.foldl_cons, List.foldl_nil]
    rw [ROMIOBuf.readByte0_in_range data (p + n) (by omega)]
    have hlt := byte_sum_lt data p n (fun i hi => hb i (by omega))
    have hor :
        (∑ i in Finset.range n, data.getD (p + i) 0 * 2 ^ (8 * i)) |||
            (data.getD (p + n) 0 <<< (8 * n)) =
          (∑ i in Finset.range n, data.getD (p + i) 0 * 2 ^ (8 * i)) +
            data.getD (p + n) 0 * 2 ^ (8 * n) := by
      rw [Nat.shiftLeft_eq, Nat.lor_comm, Nat.mul_comm (data.getD (p + n) 0),
        ← Nat.mul_add_lt_is_or hlt, Nat.add_comm]
    rw [hor, ← Finset.sum_range_succ]
    rfl

/-- C9: reading an `n`-byte value reconstructs
`∑ i, b_i <<< (8 * i)` from the byte sequence `b_0 .. b_{n-1}` at the
file pointer — the first byte read is the least significant, regardless
of the "Big Endian" label in the source documentation. -/
theorem read_value_little_endian (bs rest : List Nat)
    (hb : ∀ b ∈ bs, b < 256) :
    (ROMIOBuf.read_value ⟨bs ++ rest, 0⟩ bs.length).1 =
      ∑ i in Finset.range bs.length, bs.getD i 0 <<< (8 * i) := by
  have hget : ∀ i, i < bs.length → (bs ++ rest).getD i 0 = bs.getD i 0 := by
    intro i hi
    rw [List.getD_eq_getElem _ _ (by simp; omega),
      List.getD_eq_getElem _ _ hi, List.getElem_append_left hi]
  have hb2 : ∀ i, i < bs.length → (bs ++ rest).getD (0 + i) 0 < 256 := by
    intro i hi
    rw [Nat.zero_add, hget i hi, List.getD_eq_getElem _ _ hi]
    exact hb _ (List.getElem_mem hi)
  rw [ROMIOBuf.read_value_spec (bs ++ rest) 0 bs.length (by simp) hb2]
  dsimp only
  apply Finset.sum_congr rfl
  intro i hi
  rw [Nat.zero_add, hget i (Finset.mem_range.mp hi), Nat.shiftLeft_eq]

/-- Witness for `read_value_little_endian` on the two-byte sequence
`[0x12, 0x34]`, which reconstructs `0x3412`. -/
theorem read_value_little_endian_witness :
    (∀ b ∈ [0x12, 0x34], b < 256) ∧
      (ROMIOBuf.read_value ⟨[0x12, 0x34] ++ [0x99], 0⟩ 2).1 =
        ∑ i in Finset.range 2, [0x12, 0x34].getD i 0 <<< (8 * i) :=
  ⟨by decide, read_value_little_endian [0x12, 0x34] [0x99] (by decide)⟩

/-! ## Characterization of `write_value` -/

theorem ROMIOBuf.writeByte_append (d : List Nat) (b : Nat) :
    ROMIOBuf.writeByte ⟨d, d.length⟩ b = ⟨d ++ [b], d.length + 1⟩ := by
  simp [ROMIOBuf.writeByte, List.take_of_length_le (Nat.le_refl d.length),
    List.drop_eq_nil_of_le (by omega : d.length ≤ d.length + 1)]

theorem ROMIOBuf.write_value_append (d : List Nat) (v n : Nat) :
    ROMIOBuf.write_value ⟨d, d.length⟩ v n =
      ⟨d ++ (List.range n).map (fun i => (v >>> (i * 8)) &&& 0xFF),
        d.length + n⟩ := by
  induction n with
  | zero => simp [ROMIOBuf.write_value]
  | succ n ih =>
    unfold ROMIOBuf.write_value at ih ⊢
    rw [List.range_succ, List.foldl_append, ih]
    simp only [List.foldl_cons, List.foldl_nil]
    have hlen : d.length + n =
        (d ++ (List.range n).map (fun i => (v >>> (i * 8)) &&& 0xFF)).length := by
      simp
    rw [hlen, ROMIOBuf.writeByte_append, List.map_append]
    simp [List.append_assoc]
    omega

theorem sum_bytes_mod (v n : Nat) :
    (∑ i in Finset.range n, ((v >>> (i * 8)) &&& 0xFF) * 2 ^ (8 * i)) =
      v % 2 ^ (8 * n) := by
  induction n with
  | zero => simp [Nat.mod_one]
  | succ n ih =>
    rw [Finset.sum_range_succ, ih]
    have hb : (v >>> (n * 8)) &&& 0xFF = v / 2 ^ (8 * n) % 2 ^ 8 := by
      rw [show (0xFF : Nat) = 2 ^ 8 - 1 by norm_num,
        Nat.and_pow_two_sub_one_eq_mod, Nat.shiftRight_eq_div_pow,
        Nat.mul_comm n 8]
    rw [hb]
    have h1 : (2 : Nat) ^ (8 * (n + 1)) = 2 ^ (8 * n) * 2 ^ 8 := by
      rw [← pow_add]
      ring_nf
    rw [h1, Nat.mod_mul]
    ring

/-- C10: `write_value(v, n)` emits exactly `n` bytes, and reading them
back with `read_value(n)` yields `v mod 2^(8*n)` — an oversized value
(for example a shop price above 65535 written into a 2-byte field) is
silently truncated rather than rejected. -/
theorem write_value_emits_and_truncates (d : List Nat) (v n : Nat) :
    (ROMIOBuf.write_value ⟨d, d.length⟩ v n).data.length = d.length + n ∧
      (ROMIOBuf.write_value ⟨d, d.length⟩ v n).pos = d.length + n ∧
      (ROMIOBuf.read_value
          ⟨(ROMIOBuf.write_value ⟨d, d.length⟩ v n).data, d.length⟩ n).1 =
        v % 2 ^ (8 * n) := by
  rw [ROMIOBuf.write_value_append]
  have hget : ∀ i, i < n →
      (d ++ (List.range n).map (fun i => (v >>> (i * 8)) &&& 0xFF)).getD
          (d.length + i) 0 =
        (v >>> (i * 8)) &&& 0xFF := by
    intro i hi
    rw [List.getD_eq_getElem _ _ (by simp; omega)]
    rw [List.getElem_append_right (by omega)]
    simp [hi]
  have hb : ∀ i, i < n →
      (d ++ (List.range n).map (fun i => (v >>> (i * 8)) &&& 0xFF)).getD
          (d.length + i) 0 < 256 := by
    intro i hi
    rw [hget i hi]
    have := Nat.and_le_right (n := v >>> (i * 8)) (m := 0xFF)
    omega
  refine ⟨by simp, rfl, ?_⟩
  rw [ROMIOBuf.read_value_spec _ _ _ (by simp) hb]
  dsimp only
  rw [← sum_bytes_mod v n]
  apply Finset.sum_congr rfl
  intro i hi
  rw [hget i (Finset.mem_range.mp hi)]

/-! ## Entity model (iscripts.py, messages.py, shops.py)

Object references are replaced by the referenced entity's name (for
jump targets and shops) or the referenced `Message` value, matching
exactly what the encoder reads back out of them
(`param_value.target.name`, `param_value.shop.name`,
`param_value.message_id`). -/

inductive IScriptActionParamType where
  | value
  | message
  | script_jump_addr
  | shop_addr
deriving Repr, DecidableEq

structure IScriptActionParamInfo where
  name : String
  size : Nat := 1
  type : IScriptActionParamType := .value
deriving Repr, DecidableEq

structure IScriptActionInfo where
  action_id : Nat
  name : String
  params : List IScriptActionParamInfo := []
  ends : Bool := false
deriving Repr, DecidableEq

structure Message where
  message_id : String
  string : String
deriving Repr, DecidableEq

structure Messages where
  msgs : List Message := []
deriving Repr, DecidableEq

/-- Model of `Messages.add`: messages are numbered `1..N` in insertion
order (`_next_index` starts at 1). -/
def Messages.add (ms : Messages) (m : Message) : Messages :=
  { ms with msgs := ms.msgs ++ [m] }

/-- Model of `Messages.get_by_index` for a 1-based index; the Python
asserts (`index > 0`, `index < _next_index`) become `none`. -/
def Messages.get_by_index (ms : Messages) (index : Nat) : Option Message :=
  if 1 ≤ index then ms.msgs.get? (index - 1) else none

/-- Model of `Messages.get_index_for_id`: `_indexes_by_id` keeps the
most recent index stored for an id, so the last matching message wins;
a missing id (Python `KeyError`) becomes `none`. -/
def Messages.get_index_for_id (ms : Messages) (message_id : String) :
    Option Nat :=
  match (ms.msgs.enum.filter (fun p => p.2.message_id = message_id)).getLast? with
  | some p => some (p.1 + 1)
  | none => none

structure ShopItem where
  item : Nat
  price : Nat
deriving Repr, DecidableEq

structure Shop where
  name : String
  items : List ShopItem := []
deriving Repr, DecidableEq

structure IScriptLabel where
  name : String
deriving Repr, DecidableEq

/-- Runtime contents of `IScriptActionParamValue.value` (typed `Any` in
the source): a plain number, a resolved `Message`, an
`IScriptTargetRef` (carried as script name plus optional label name),
or a `ShopRef` (carried as the shop name). -/
inductive IScriptParamValue where
  | num (value : Nat)
  | msg (message : Message)
  | target (iscript_name : String) (label_name : Option String)
  | shopref (shop_name : String)
deriving Repr, DecidableEq

/-- Model of `IScriptTargetRef.target.name`: the label if present, else
the script itself. -/
def targetRefName (iscript_name : String) (label_name : Option String) :
    String :=
  label_name.getD iscript_name

structure IScriptActionParamValue where
  value : IScriptParamValue
  info : IScriptActionParamInfo
deriving Repr, DecidableEq

structure IScriptAction where
  action_type : IScriptActionInfo
  params : List IScriptActionParamValue
deriving Repr, DecidableEq

inductive IScriptCodeSegment where
  | label (l : IScriptLabel)
  | action (a : IScriptAction)
deriving Repr, DecidableEq

structure IScript where
  code : List IScriptCodeSegment
  name : String
  entity : Option Nat := none
deriving Repr, DecidableEq

structure IScripts where
  iscripts : List IScript := []
  entrypoints : List String := []
deriving Repr, DecidableEq

/-- Model of `IScripts.add`; the `assert name not in self._iscripts_by_id`
becomes an error. -/
def IScripts.add (c : IScripts) (s : IScript) : Except String IScripts :=
  if c.iscripts.any (fun t => t.name = s.name) then
    .error ("AssertionError: duplicate IScript name " ++ s.name)
  else
    .ok { c with iscripts := c.iscripts ++ [s] }

def IScripts.add_many (c : IScripts) (ss : List IScript) :
    Except String IScripts :=
  ss.foldlM IScripts.add c

/-- Embedding of the `FaxanaduROM` dataclass with its default offsets
(rom.py lines 15-52).  `shops` is the `dict[str, Shop]` in insertion
order. -/
structure FaxanaduROM where
  messages : Messages := {}
  iscripts : IScripts := {}
  shops : List (String × Shop) := []
  messages_offset : Nat := 0x34300
  max_iscript_addrs : Nat := 152
  iscript_addrs_offset : Nat := 0x31F6B
  iscripts_offset : Nat := 0x31F6B + 152 * 2
  max_iscripts_len : Nat := 0xA6C8 - 0xA09A
  max_messages_len : Nat := 0xB3BA - 0x8300
deriving Repr, DecidableEq

/-! ## The static action-type table (iscripts.py, `ACTION_TYPES`) -/

def ACTION_TYPES : List (Nat × IScriptActionInfo) := [
  (0x00, { action_id := 0x00, name := "end", ends := true }),
  (0x01, { action_id := 0x01, name := "show-message",
           params := [{ name := "message_id",
                        type := .message }] }),
  (0x02, { action_id := 0x02, name := "show-dismissible-message",
           params := [{ name := "message_id",
                        type := .message }] }),
  (0x03, { action_id := 0x03, name := "show-message-2",
           params := [{ name := "message_id",
                        type := .message }] }),
  (0x04, { action_id := 0x04, name := "if-update-player-title",
           params := [{ name := "then-jump", size := 2,
                        type := .script_jump_addr }] }),
  (0x05, { action_id := 0x05, name := "pay-gold",
           params := [{ name := "amount", size := 2 }] }),
  (0x06, { action_id := 0x06, name := "set-spawn-point",
           params := [{ name := "temple-id" }] }),
  (0x07, { action_id := 0x07, name := "add-player-item",
           params := [{ name := "item-id" }] }),
  (0x08, { action_id := 0x08, name := "open-shop",
           params := [{ name := "items", size := 2,
                        type := .shop_addr }] }),
  (0x09, { action_id := 0x09, name := "add-gold",
           params := [{ name := "amount", size := 2 }] }),
  (0x0A, { action_id := 0x0A, name := "add-mp",
           params := [{ name := "amount" }] }),
  (0x0B, { action_id := 0x0B, name := "if-quest",
           params := [{ name := "quest" },
                      { name := "then-jump", size := 2,
                        type := .script_jump_addr }] }),
  (0x0C, { action_id := 0x0C, name := "if-player-rank",
           params := [{ name := "rank" },
                      { name := "then-jump", size := 2,
                        type := .script_jump_addr }] }),
  (0x0D, { action_id := 0x0D, name := "if-has-gold",
           params := [{ name := "then-jump", size := 2,
                        type := .script_jump_addr }] }),
  (0x0E, { action_id := 0x0E, name := "set-quest-complete",
           params := [{ name := "quest" }] }),
  (0x0F, { action_id := 0x0F, name := "show-buy-sell-menu",
           params := [{ name := "if-buy-then-jump", size := 2,
                        type := .script_jump_addr }] }),
  (0x10, { action_id := 0x10, name := "take-item",
           params := [{ name := "item-id" }] }),
  (0x11, { action_id := 0x11, name := "show-sell-menu",
           params := [{ name := "sellable-items", size := 2,
                        type := .shop_addr }] }),
  (0x12, { action_id := 0x12, name := "if-has-item",
           params := [{ name := "item-id" },
                      { name := "then-jump", size := 2,
                        type := .script_jump_addr }] }),
  (0x13, { action_id := 0x13, name := "add-hp",
           params := [{ name := "amount" }] }),
  (0x14, { action_id := 0x14, name := "show-password" }),
  (0x15, { action_id := 0x15, name := "end-game" }),
  (0x17, { action_id := 0x17, name := "jump", ends := true,
           params := [{ name := "addr", size := 2,
                        type := .script_jump_addr }] })]

/-! ## Encoder (encoder.py, `ROMEncoder`) -/

/-- ASCII bytes of a string (`message.string.encode('ascii')`). -/
def strBytes (s : String) : List Nat :=
  s.data.map Char.toNat

/-- Model of Python `bytes.replace`: replace non-overlapping
occurrences of `pat` left to right.  The patterns used by the program
are never empty, and the empty-pattern case keeps the input unchanged
here. -/
def bytesReplaceAux (pat rep : List Nat) : Nat → List Nat → List Nat
  | 0, s => s
  | fuel + 1, s =>
      match s with
      | [] => []
      | c :: rest =>
          if pat ≠ [] ∧ pat.isPrefixOf (c :: rest) then
            rep ++ bytesReplaceAux pat rep fuel (rest.drop (pat.length - 1))
          else
            c :: bytesReplaceAux pat rep fuel rest

def bytesReplace (s : List Nat) (pat rep : List Nat) : List Nat :=
  bytesReplaceAux pat rep s.length s

/-- Embedding of `ROMEncoder.MESSAGE_SPECIAL_CHARS` in its (ordered)
dict iteration order. -/
def ROMEncoder.MESSAGE_SPECIAL_CHARS : List (List Nat × List Nat) :=
  [(strBytes "<<<TITLE>>>", [0xfb]),
   (strBytes "<<<PAUSE>>>", [0xfc]),
   (strBytes " ", [0xfd]),
   (strBytes "\n", [0xfe])]

/-- Embedding of `ROMEncoder.encode_messages` (encoder.py lines 38-63). -/
def ROMEncoder.encode_messages (fp : ROMIOBuf) (messages : Messages) : ROMIOBuf :=
  messages.msgs.foldl
    (fun fp message =>
      let message_str := ROMEncoder.MESSAGE_SPECIAL_CHARS.foldl
        (fun bs pr => bytesReplace bs pr.1 pr.2)
        (strBytes message.string)
      (fp.writeBytes message_str).writeBytes [0xFF])
    fp

/-- Embedding of `ROMEncoder.encode_iscript_addrs` (encoder.py lines
65-102): low bytes of every offset, then high bytes, each array padded
with zero bytes up to `max_iscript_addrs` entries. -/
def ROMEncoder.encode_iscript_addrs (fp : ROMIOBuf) (rom_offsets : List Nat)
    (max_iscript_addrs : Nat) : ROMIOBuf :=
  let iscript_lower_addrs := rom_offsets.map (fun o => o &&& 0xFF)
  let iscript_upper_addrs := rom_offsets.map (fun o => (o >>> 8) &&& 0xFF)
  let num_addrs := rom_offsets.length
  let padding :=
    if num_addrs < max_iscript_addrs then
      List.replicate (max_iscript_addrs - num_addrs) 0
    else []
  ((fp.writeBytes (iscript_lower_addrs ++ padding)).writeBytes
    (iscript_upper_addrs ++ padding))

/-- State threaded through `encode_iscript` / `encode_iscript_action`:
the file, the two pending-patch tables and the offset table that the
Python passes as mutable dict arguments. -/
structure EncState where
  fp : ROMIOBuf
  iscript_refs : List (Nat × String) := []
  shop_refs : List (Nat × String) := []
  iscript_rom_offsets : List (String × Nat) := []
deriving Repr, DecidableEq

/-- Loop body of `ROMEncoder.encode_iscript_action` (encoder.py lines
185-208): one parameter.  Jump-target and shop parameters record the
current write position in the pending-patch table and write the
`0xFFFF` placeholder; message parameters write the live 1-based index;
Python assertion failures and `KeyError` become errors. -/
def ROMEncoder.encodeActionParam (messages : Messages) (st : EncState)
    (param : IScriptActionParamValue) : Except String EncState :=
  match param.info.type, param.value with
  | .script_jump_addr, .target iname lname =>
      let st := { st with
        iscript_refs := dset st.iscript_refs st.fp.pos
          (targetRefName iname lname) }
      .ok { st with fp := st.fp.write_value 0xFFFF param.info.size }
  | .script_jump_addr, _ =>
      .error "AssertionError: expected an IScriptTargetRef parameter"
  | .shop_addr, .shopref sname =>
      let st := { st with
        shop_refs := dset st.shop_refs st.fp.pos sname }
      .ok { st with fp := st.fp.write_value 0xFFFF param.info.size }
  | .shop_addr, _ =>
      .error "AssertionError: expected a ShopRef parameter"
  | .message, .msg m =>
      match messages.get_index_for_id m.message_id with
      | some idx => .ok { st with fp := st.fp.write_value idx param.info.size }
      | none => .error ("KeyError: " ++ m.message_id)
  | .message, _ =>
      .error "AssertionError: expected message parameter of type Message"
  | .value, .num v =>
      .ok { st with fp := st.fp.write_value v param.info.size }
  | .value, _ =>
      .error "TypeError: expected an int parameter"

/-- Embedding of `ROMEncoder.encode_iscript_action` (encoder.py lines
155-208): the opcode byte, then each parameter. -/
def ROMEncoder.encode_iscript_action (st : EncState)
    (action : IScriptAction) (messages : Messages) :
    Except String EncState :=
  let st := { st with fp := st.fp.write_value action.action_type.action_id 1 }
  action.params.foldlM (ROMEncoder.encodeActionParam messages) st

/-- Loop body of `ROMEncoder.encode_iscript` (encoder.py lines
143-153): one code segment.  A label emits no bytes and records
`cur_addr` — the value captured at the start of the script, not the
current write position — under the label's name. -/
def ROMEncoder.encodeIScriptSegment (messages : Messages) (cur_addr : Nat)
    (st : EncState) (segment : IScriptCodeSegment) : Except String EncState :=
  match segment with
  | .label l =>
      .ok { st with
        iscript_rom_offsets := dset st.iscript_rom_offsets l.name cur_addr }
  | .action a => ROMEncoder.encode_iscript_action st a messages

/-- Embedding of `ROMEncoder.encode_iscript` (encoder.py lines
104-153).  Note that `cur_addr` is bound once, before any bytes of the
script are written. -/
def ROMEncoder.encode_iscript (st : EncState) (iscript : IScript)
    (messages : Messages) : Except String EncState :=
  let cur_addr := st.fp.pos
  let st := { st with
    iscript_rom_offsets := dset st.iscript_rom_offsets iscript.name cur_addr }
  let st :=
    match iscript.entity with
    | some e => { st with fp := st.fp.write_value e 1 }
    | none => st
  iscript.code.foldlM (ROMEncoder.encodeIScriptSegment messages cur_addr) st

/-- Embedding of `ROMEncoder.encode_shop` (encoder.py lines 210-228). -/
def ROMEncoder.encode_shop (fp : ROMIOBuf) (shop : Shop) : ROMIOBuf :=
  let fp := shop.items.foldl
    (fun fp shop_item =>
      (fp.write_value shop_item.item 1).write_value shop_item.price 2)
    fp
  fp.writeBytes [0xFF]

/-! ## Patcher (encoder.py, `ROMPatcher`) -/

/-- Embedding of `ROMPatcher._patch_messages` (encoder.py lines
300-327). -/
def ROMPatcher.patch_messages (fp : ROMIOBuf) (rom : FaxanaduROM) :
    Except String ROMIOBuf :=
  let start_addr := rom.messages_offset
  let fp := fp.seek start_addr
  let fp := ROMEncoder.encode_messages fp rom.messages
  let data_len := fp.pos - start_addr
  if data_len > rom.max_messages_len then
    .error ("The compiled message strings are too large for the ROM. It "
      ++ "must be " ++ toString rom.max_messages_len
      ++ " bytes or less, but was " ++ toString data_len ++ " bytes.")
  else
    .ok fp

/-- State of `ROMPatcher._patch_iscripts` (encoder.py lines 329-421):
the local dicts/lists and the running `total_bytes`. -/
structure PatchState where
  fp : ROMIOBuf
  iscript_refs : List (Nat × String) := []
  shop_refs : List (Nat × String) := []
  iscript_rom_offsets : List (String × Nat) := []
  shop_rom_offsets : List (String × Nat) := []
  entrypoint_iscript_rom_offsets : List Nat := []
  total_bytes : Nat := 0
deriving Repr, DecidableEq

/-- Body of the first loop of `_patch_iscripts` ("Output all the
scripts and their inner scripts"): encode one script, recording its
bank-relative start address when it is an entrypoint and accumulating
`total_bytes`. -/
def ROMPatcher.patchIScriptsStep (rom : FaxanaduROM) (ps : PatchState)
    (iscript : IScript) : Except String PatchState := do
  let iscript_start_addr := ps.fp.pos
  let entry :=
    if rom.iscripts.entrypoints.contains iscript.name then
      ps.entrypoint_iscript_rom_offsets ++
        [get_bank_addr_for iscript_start_addr]
    else
      ps.entrypoint_iscript_rom_offsets
  let st ← ROMEncoder.encode_iscript
    ⟨ps.fp, ps.iscript_refs, ps.shop_refs, ps.iscript_rom_offsets⟩
    iscript rom.messages
  .ok { fp := st.fp,
        iscript_refs := st.iscript_refs,
        shop_refs := st.shop_refs,
        iscript_rom_offsets := st.iscript_rom_offsets,
        shop_rom_offsets := ps.shop_rom_offsets,
        entrypoint_iscript_rom_offsets := entry,
        total_bytes := ps.total_bytes + (st.fp.pos - iscript_start_addr) }

/-- The first loop of `_patch_iscripts`: every script in collection
order. -/
def ROMPatcher.patchIScriptsScripts (rom : FaxanaduROM) (ps : PatchState) :
    Except String PatchState :=
  rom.iscripts.iscripts.foldlM (ROMPatcher.patchIScriptsStep rom) ps

/-- Body of the second loop of `_patch_iscripts` ("Output all the
shops"): encode one shop, recording its start offset and accumulating
`total_bytes`. -/
def ROMPatcher.patchShopStep (ps : PatchState) (shop : Shop) : PatchState :=
  let shop_start_addr := ps.fp.pos
  let fp := ROMEncoder.encode_shop ps.fp shop
  { ps with
    fp := fp,
    shop_rom_offsets := dset ps.shop_rom_offsets shop.name shop_start_addr,
    total_bytes := ps.total_bytes + (fp.pos - shop_start_addr) }

/-- Stable insertion into a name-sorted list: a shop goes after every
shop whose name is not greater. -/
def sortedInsertShop (x : Shop) : List Shop → List Shop
  | [] => [x]
  | y :: ys => if x.name < y.name then x :: y :: ys else y :: sortedInsertShop x ys

/-- Model of Python `sorted(shops, key=lambda shop: shop.name)`: a
stable sort by name. -/
def sortShopsByName (shops : List Shop) : List Shop :=
  shops.foldl (fun acc s => sortedInsertShop s acc) []

/-- The second loop of `_patch_iscripts`: the shop values sorted by
name (`sorted(rom.shops.values(), key=lambda shop: shop.name)`). -/
def ROMPatcher.patchIScriptsShops (rom : FaxanaduROM) (ps : PatchState) :
    PatchState :=
  (sortShopsByName (rom.shops.map Prod.snd)).foldl ROMPatcher.patchShopStep ps

/-- Embedding of the zero-padding loop of `_patch_iscripts`
(`for i in range(rom.max_iscripts_len - total_bytes): fp.write(b'\0')`). -/
def ROMPatcher.padIScriptsRegion (fp : ROMIOBuf) (count : Nat) : ROMIOBuf :=
  (List.range count).foldl (fun fp _ => fp.writeByte 0) fp

/-- Embedding of the two backpatch loops of `_patch_iscripts`: seek to
each recorded patch position and write the bank-relative address of the
named target (Python `KeyError` becomes an error). -/
def ROMPatcher.backpatchRefs (fp : ROMIOBuf) (refs : List (Nat × String))
    (rom_offsets : List (String × Nat)) : Except String ROMIOBuf :=
  refs.foldlM
    (fun fp pr =>
      match dget rom_offsets pr.2 with
      | some off =>
          .ok ((fp.seek pr.1).write_value (get_bank_addr_for off) 2)
      | none => .error ("KeyError: " ++ pr.2))
    fp

/-- Embedding of `ROMPatcher._patch_iscript_entrypoints` (encoder.py
lines 423-458). -/
def ROMPatcher.patch_iscript_entrypoints (fp : ROMIOBuf) (rom : FaxanaduROM)
    (entrypoint_iscript_rom_offsets : List Nat) : Except String ROMIOBuf :=
  let num_entrypoints := rom.iscripts.entrypoints.length
  if num_entrypoints > rom.max_iscript_addrs then
    .error ("There are too many entrypoint script addresses for the ROM. "
      ++ "It must be " ++ toString rom.max_iscript_addrs
      ++ " scripts or less, but was " ++ toString num_entrypoints ++ ".")
  else
    .ok (ROMEncoder.encode_iscript_addrs (fp.seek rom.iscript_addrs_offset)
      entrypoint_iscript_rom_offsets rom.max_iscript_addrs)

/-- Embedding of `ROMPatcher._patch_iscripts` (encoder.py lines
329-421). -/
def ROMPatcher.patch_iscripts (fp : ROMIOBuf) (rom : FaxanaduROM) :
    Except String ROMIOBuf := do
  let start_addr := rom.iscripts_offset
  let ps0 : PatchState := { fp := fp.seek start_addr }
  let ps1 ← ROMPatcher.patchIScriptsScripts rom ps0
  let ps2 := ROMPatcher.patchIScriptsShops rom ps1
  if ps2.total_bytes > rom.max_iscripts_len then
    .error ("The compiled scripts are too large for the ROM. It must be "
      ++ toString rom.max_iscripts_len ++ " bytes or less, but was "
      ++ toString ps2.total_bytes ++ " bytes.")
  else do
    let fp := ROMPatcher.padIScriptsRegion ps2.fp
      (rom.max_iscripts_len - ps2.total_bytes)
    let fp ← ROMPatcher.backpatchRefs fp ps2.iscript_refs
      ps2.iscript_rom_offsets
    let fp ← ROMPatcher.backpatchRefs fp ps2.shop_refs ps2.shop_rom_offsets
    ROMPatcher.patch_iscript_entrypoints fp rom
      ps2.entrypoint_iscript_rom_offsets

/-- Embedding of `ROMPatcher.patch` (encoder.py lines 262-298): strip
the 16-byte file header, patch messages then scripts in the body, and
only on success produce the output file (header plus patched body).
An error means no output file is written. -/
def ROMPatcher.patch (rom : FaxanaduROM) (file : List Nat) :
    Except String (List Nat) := do
  let header := file.take 16
  let fp : ROMIOBuf := ⟨file.drop 16, 0⟩
  let fp ← ROMPatcher.patch_messages fp rom
  let fp ← ROMPatcher.patch_iscripts fp rom
  .ok (header ++ fp.data)


/-! ## Decoder (decoder.py) -/

/-- Python `hex(n)` for non-negative `n`: `0x` plus lowercase hex
digits. -/
def pyHex (n : Nat) : String :=
  "0x" ++ String.mk (Nat.toDigits 16 n)

/-- Python `f'{n:02x}'`: lowercase hex, zero-padded to width 2. -/
def formatHex02 (n : Nat) : String :=
  let s := String.mk (Nat.toDigits 16 n)
  if s.length < 2 then "0" ++ s else s

/-- Embedding of `ROMDecoder.MESSAGE_SPECIAL_CHARS` (decoder.py lines
29-34). -/
def ROMDecoder.MESSAGE_SPECIAL_CHARS : List (Nat × List Nat) :=
  [(0xfb, strBytes "<<<TITLE>>>"),
   (0xfc, strBytes "<<<PAUSE>>>"),
   (0xfd, strBytes " "),
   (0xfe, strBytes "\n")]

/-- Embedding of `ROMDecoder.build_addr` (decoder.py lines 36-54). -/
def ROMDecoder.build_addr (upper lower : Nat) : Nat :=
  ((upper <<< 8) ||| lower) &&& 0xFFFF

/-- Model of `fp.read(n)`: up to `n` bytes starting at the pointer. -/
def ROMIOBuf.readN (fp : ROMIOBuf) (n : Nat) : List Nat × ROMIOBuf :=
  let bs := (fp.data.drop fp.pos).take n
  (bs, { fp with pos := fp.pos + bs.length })

/-- Embedding of `ROMDecoder.iter_decode_iscript_addrs` (decoder.py
lines 91-118): two parallel byte arrays (low then high), zipped into
bank-relative addresses. -/
def ROMDecoder.iter_decode_iscript_addrs (fp : ROMIOBuf) (num_scripts : Nat) :
    List Nat × ROMIOBuf :=
  let r1 := fp.readN num_scripts
  let r2 := r1.2.readN num_scripts
  ((r2.1.zip r1.1).map (fun p => ROMDecoder.build_addr p.1 p.2), r2.2)

/-- Inner loop of `decode_messages`: bytes of one message up to the
`0xFF` terminator.  At end of buffer the Python loop never terminates
(`fp.read1(1)` keeps returning `b''`); the fuel models that divergence
as an error. -/
def ROMDecoder.readMessageBytes : Nat → ROMIOBuf → List Nat →
    Except String (List Nat × ROMIOBuf)
  | 0, _, _ => .error "fuel exhausted while reading a message"
  | fuel + 1, fp, buf =>
      match fp.readByte with
      | (some 0xFF, fp2) => .ok (buf, fp2)
      | (some c, fp2) => ROMDecoder.readMessageBytes fuel fp2 (buf ++ [c])
      | (none, fp2) => ROMDecoder.readMessageBytes fuel fp2 buf

/-- Translation of one message's bytes to text with the four reserved
byte values expanded (decoder.py lines 81-84); a byte that is neither
reserved nor ASCII makes `bytes.decode('ascii')` raise. -/
def ROMDecoder.decodeMessageBytes (buf : List Nat) : Except String String :=
  let expanded := (buf.map (fun c =>
    match dget ROMDecoder.MESSAGE_SPECIAL_CHARS c with
    | some r => r
    | none => [c])).join
  if expanded.all (fun c => c < 128) then
    .ok (String.mk (expanded.map Char.ofNat))
  else
    .error "UnicodeDecodeError: byte is not ASCII"

/-- Embedding of `ROMDecoder.decode_messages` (decoder.py lines 56-89):
messages accumulate until the table's terminating null byte; each is a
`0xFF`-terminated run named `msg-XX` by 1-based index. -/
def ROMDecoder.decode_messages : Nat → ROMIOBuf → Messages →
    Except String (Messages × ROMIOBuf)
  | 0, _, _ => .error "fuel exhausted in decode_messages"
  | fuel + 1, fp, messages =>
      if fp.peek1 = some 0 then
        .ok (messages, fp)
      else do
        let r ← ROMDecoder.readMessageBytes (fp.data.length + 2) fp []
        let s ← ROMDecoder.decodeMessageBytes r.1
        let messages := messages.add
          ⟨"msg-" ++ formatHex02 (messages.msgs.length + 1), s⟩
        ROMDecoder.decode_messages fuel r.2 messages

/-- Embedding of `ROMDecoder.read_iscript_entity` (decoder.py lines
120-136). -/
def ROMDecoder.read_iscript_entity (fp : ROMIOBuf) : Nat × ROMIOBuf :=
  fp.read_value 1

/-- Embedding of `ROMDecoder.read_iscript_action` (decoder.py lines
138-172): read the opcode byte, look it up in `ACTION_TYPES` (an
unknown opcode raises `ValueError(f'Unknown action ID {action_id}')`),
then read each parameter's fixed-width value. -/
def ROMDecoder.read_iscript_action (fp : ROMIOBuf) :
    Except String (IScriptAction × ROMIOBuf) :=
  let r := fp.read_value 1
  let action_id := r.1
  match dget ACTION_TYPES action_id with
  | none => .error ("Unknown action ID " ++ toString action_id)
  | some action_type =>
      let pr := action_type.params.foldl
        (fun (acc : List IScriptActionParamValue × ROMIOBuf) param_info =>
          let rv := acc.2.read_value param_info.size
          (acc.1 ++ [{ value := .num rv.1, info := param_info }], rv.2))
        ([], r.2)
      .ok ({ action_type := action_type, params := pr.1 }, pr.2)

/-- Embedding of `ROMDecoder.read_shop` (decoder.py lines 174-201):
sequential (item, price) pairs until the `0xFF` sentinel.  As with
messages, running past the end of the buffer diverges in Python and is
modelled by fuel. -/
def ROMDecoder.read_shop : Nat → ROMIOBuf → Shop → Except String (Shop × ROMIOBuf)
  | 0, _, _ => .error "fuel exhausted while reading a shop"
  | fuel + 1, fp, shop =>
      let r := fp.read_value 1
      if r.1 = 0xFF then
        .ok (shop, r.2)
      else
        let r2 := r.2.read_value 2
        ROMDecoder.read_shop fuel r2.2
          { shop with items := shop.items ++ [⟨r.1, r2.1⟩] }

/-- Resolution of message parameters during the action scan
(decoder.py lines 423-424: `param.value = messages.get_by_index(...)`);
the asserts of `get_by_index` become errors. -/
def resolveMessageParams (action : IScriptAction) (messages : Messages) :
    Except String IScriptAction := do
  let params ← action.params.mapM
    (fun param =>
      match param.info.type, param.value with
      | .message, .num v =>
          match messages.get_by_index v with
          | some m => .ok { param with value := .msg m }
          | none => .error "AssertionError: message index out of range"
      | _, _ => .ok param)
  .ok { action with params := params }

/-- Positions (parameter index, raw address) of the jump-target
parameters of one action, queued for deferred resolution. -/
def jumpParamAddrs (action : IScriptAction) : List (Nat × Nat) :=
  (action.params.enum.filterMap
    (fun p =>
      match p.2.info.type, p.2.value with
      | .script_jump_addr, .num v => some (p.1, v)
      | _, _ => none))

/-- Positions (parameter index, raw address) of the shop-table
parameters of one action, queued for deferred resolution. -/
def shopParamAddrs (action : IScriptAction) : List (Nat × Nat) :=
  (action.params.enum.filterMap
    (fun p =>
      match p.2.info.type, p.2.value with
      | .shop_addr, .num v => some (p.1, v)
      | _, _ => none))

/-- Replacement of one queued parameter's value once its target is
known (the Python mutates the queued parameter object in place). -/
def setActionParam (code : List IScriptCodeSegment) (ci pi : Nat)
    (v : IScriptParamValue) : List IScriptCodeSegment :=
  match code.get? ci with
  | some (.action a) =>
      match a.params.get? pi with
      | some p =>
          code.set ci (.action
            { a with params := a.params.set pi { p with value := v } })
      | none => code
  | _ => code

/-- Embedding of the `while True` action loop of
`ROMReader._read_iscript` (decoder.py lines 404-427): before each
action the current bank-relative address, when different from the
script's start address, becomes a label segment registered as a
reference target; actions accumulate until one with `ends` is hit,
queueing jump-target and shop parameters and resolving message
parameters immediately. -/
def ROMReader.scanActions : Nat → ROMIOBuf → Messages → Nat → String →
    List (Nat × (String × Option String)) → List IScriptCodeSegment →
    List (Nat × Nat × Nat) → List (Nat × Nat × Nat) →
    Except String (List IScriptCodeSegment × List (Nat × Nat × Nat) ×
      List (Nat × Nat × Nat) × List (Nat × (String × Option String)) × ROMIOBuf)
  | 0, _, _, _, _, _, _, _, _ =>
      .error "fuel exhausted while scanning actions"
  | fuel + 1, fp, messages, bank_addr, iscript_name, reffable, code,
      jump_queues, store_items_queues => do
      let cur_addr := get_bank_addr_for fp.pos
      let code2 :=
        if cur_addr ≠ bank_addr then
          code ++ [.label ⟨pyHex cur_addr⟩]
        else code
      let reffable2 :=
        if cur_addr ≠ bank_addr then
          dset reffable cur_addr (iscript_name, some (pyHex cur_addr))
        else reffable
      let r ← ROMDecoder.read_iscript_action fp
      let action ← resolveMessageParams r.1 messages
      let ci := code2.length
      let jump_queues2 := jump_queues ++
        (jumpParamAddrs action).map (fun pr => (ci, pr.1, pr.2))
      let store_items_queues2 := store_items_queues ++
        (shopParamAddrs action).map (fun pr => (ci, pr.1, pr.2))
      let code3 := code2 ++ [.action action]
      if action.action_type.ends then
        .ok (code3, jump_queues2, store_items_queues2, reffable2, r.2)
      else
        ROMReader.scanActions fuel r.2 messages bank_addr iscript_name
          reffable2 code3 jump_queues2 store_items_queues2

mutual

/-- Embedding of `ROMReader._read_iscript` (decoder.py lines 335-459).
The script registers itself as a reference target before reading,
scans its actions, then resolves the queued jump-target parameters
(recursively decoding any unregistered address) and the queued shop
parameters.  The Python iterates its queue sets in an unspecified
order; occurrence order is used here.  The fuel bounds the recursion
depth. -/
def ROMReader.read_iscript (fuel : Nat) (fp : ROMIOBuf) (messages : Messages)
    (bank bank_addr : Nat)
    (reffable : List (Nat × (String × Option String)))
    (shops : List (String × Shop)) (read_entity : Bool)
    (entrypoint : Bool) (name : Option String) :
    Except String (List IScript × List (Nat × (String × Option String)) ×
      List (String × Shop) × ROMIOBuf) :=
  match fuel with
  | 0 => .error "recursion limit exhausted in read_iscript"
  | fuel + 1 => do
      let fp := fp.seek_bank_addr bank bank_addr
      let iscript_name := name.getD (pyHex bank_addr)
      let reffable := dset reffable bank_addr (iscript_name, none)
      let er :=
        if read_entity then
          let r := ROMDecoder.read_iscript_entity fp
          (some r.1, r.2)
        else (none, fp)
      let entity := er.1
      let sr ← ROMReader.scanActions (er.2.data.length + 2) er.2 messages
        bank_addr iscript_name reffable [] [] []
      let (code, jump_queues, store_items_queues, reffable, fp) := sr
      let jr ← ROMReader.processJumpQueue fuel jump_queues messages bank
        code [] reffable shops fp
      let (code, extra, reffable, shops, fp) := jr
      let shr ← store_items_queues.foldlM
        (fun (acc : List IScriptCodeSegment × List (String × Shop) × ROMIOBuf)
            pr => do
          let (code, shops, fp) := acc
          let (ci, pi, addr) := pr
          let fp := fp.seek_bank_addr bank addr
          let rs ← ROMDecoder.read_shop (fp.data.length + 2) fp
            { name := pyHex addr }
          let shops := dset shops rs.1.name rs.1
          .ok (setActionParam code ci pi (.shopref rs.1.name), shops, rs.2))
        (code, shops, fp)
      let (code, shops, fp) := shr
      .ok (⟨code, iscript_name, entity⟩ :: extra, reffable, shops, fp)

/-- The deferred-jump loop of `_read_iscript` (decoder.py lines
429-446): for each queued (segment, parameter, address), recursively
decode the address if it is not yet a registered target, then replace
the parameter with a reference to the registered (script, label) pair. -/
def ROMReader.processJumpQueue (fuel : Nat)
    (queue : List (Nat × Nat × Nat)) (messages : Messages) (bank : Nat)
    (code : List IScriptCodeSegment) (extra : List IScript)
    (reffable : List (Nat × (String × Option String)))
    (shops : List (String × Shop)) (fp : ROMIOBuf) :
    Except String (List IScriptCodeSegment × List IScript ×
      List (Nat × (String × Option String)) × List (String × Shop) ×
      ROMIOBuf) :=
  match fuel with
  | 0 => .error "recursion limit exhausted in processJumpQueue"
  | fuel + 1 =>
      match queue with
      | [] => .ok (code, extra, reffable, shops, fp)
      | pr :: rest => do
          let (ci, pi, addr) := pr
          let rr ←
            if (dget reffable addr).isNone then
              ROMReader.read_iscript fuel fp messages bank addr reffable
                shops false false none
            else
              .ok ([], reffable, shops, fp)
          let (extra2, reffable, shops, fp) := rr
          match dget reffable addr with
          | some t =>
              ROMReader.processJumpQueue fuel rest messages bank
                (setActionParam code ci pi (.target t.1 t.2))
                (extra ++ extra2) reffable shops fp
          | none => .error "KeyError: unresolved jump target"

end

/-- Embedding of `DEFAULT_ISCRIPT_ORDER` (iscripts.py lines 503-656). -/
def DEFAULT_ISCRIPT_ORDER : List String :=
  ["intro-exposition", "eolis-first-walking-man", "mark-of-jack", "a0b1", 
   "eolis-guru", "a0c9", "eolis-smoking-man", "eolis-kings-guard", 
   "eolis-king", "a0ee", "a0f8", "eolis-meat-shop", "eolis-key-shop", 
   "eolis-tool-shop", "eolis-magic-shop", "eolis-martial-arts", "a10b", 
   "a116", "a121", "a12c", "a137", "apolune-doctor", "a13b", "a146", 
   "a151", "apolune-tool-shop", "apolune-key-shop", "a155", "apolune-guru", 
   "before-apolune-tool-shop", "intro-exposition", "remember-your-mantra", 
   "forepaw-greeter", "a162", "a16d", "a178", "a18a", "spring-of-sky", 
   "spring-of-trunk", "a1c3", "forepaw-tool-shop", "forepaw-guru", 
   "forepaw-doctor", "forepaw-key-shop", "forepaw-meat-shop", 
   "intro-exposition", "intro-exposition", "intro-exposition", "a1d9", 
   "a1e4", "a1ef", "a1fa", "a205", "overworld-mist-house-man", 
   "overworld-mist-house-woman", "a226", "mascon-doctor", 
   "mascon-tool-shop", "mascon-meat-shop", "mascon-key-shop", 
   "after-mascon-tool-shop", "mascon-guru", "intro-exposition", 
   "intro-exposition", "a231", "a23c", "a247", "a252", "a266", "a271", 
   "a27c", "victim-doctor", "victim-tool-shop", "victim-meat-shop", 
   "victim-key-shop", "after-victim-magic-shop", "victim-guru", 
   "intro-exposition", "intro-exposition", "intro-exposition", "a290", 
   "a29b", "a2a6", "a2b8", "a2c3", "conflate-guru", "conflate-doctor", 
   "conflate-tool-shop", "conflate-meat-shop", "intro-exposition", 
   "intro-exposition", "intro-exposition", "intro-exposition", 
   "intro-exposition", "intro-exposition", "intro-exposition", "a2ce", 
   "a2d9", "a2e4", "a2ef", "a2fa", "a305", "daybreak-tool-shop", 
   "daybreak-meat-shop", "daybreak-key-shop", "daybreak-guru", 
   "intro-exposition", "intro-exposition", "intro-exposition", 
   "intro-exposition", "intro-exposition", "intro-exposition", "a310", 
   "overworld-house-man", "overworld-house-woman", "a331", 
   "fraternal-guru", "dartmoor-tool-shop", "dartmoor-meat-shop", 
   "dartmoor-key-shop", "guru-final", "eolis-king-glad-you-are-back", 
   "dartmoor-doctor", "mark-of-queen", "mark-of-king", "mark-of-ace", 
   "mark-of-joker", "need-ring-for-door", "used-red-potion", 
   "used-mattock", "used-hourglass", "used-wingboots", "used-key", 
   "used-elixir", "got-elixir", "got-red-potion", "got-mattock", 
   "got-wingboots", "got-hourglass", "got-battle-suit", 
   "got-battle-helmet", "got-dragon-slayer", "got-black-onyx", 
   "got-pendant", "got-magical-rod", "touched-poison", "got-power-glove", 
   "power-glove-gone", "ointment-used", "ointment-gone", "wingboots-gone", 
   "hourglass-gone"]
/-- Embedding of the entrypoint loop of `ROMReader._read_iscripts`
(decoder.py lines 315-333): every position appends its
`DEFAULT_ISCRIPT_ORDER` name to the entrypoint list; an address
already seen is skipped, otherwise it is decoded (as an entrypoint,
reading the entity byte) and the resulting scripts are added to the
collection. -/
def ROMReader.readIscriptsLoop (messages : Messages) (bank : Nat) :
    List (Nat × Nat) → IScripts → List Nat →
    List (Nat × (String × Option String)) → List (String × Shop) → ROMIOBuf →
    Except String (IScripts × List (String × Shop) × ROMIOBuf)
  | [], iscripts, _seen, _reffable, shops, fp => .ok (iscripts, shops, fp)
  | (i, bank_addr) :: rest, iscripts, seen, reffable, shops, fp => do
      let name ← match DEFAULT_ISCRIPT_ORDER.get? i with
        | some n => Except.ok n
        | none => Except.error "IndexError: DEFAULT_ISCRIPT_ORDER"
      let iscripts :=
        { iscripts with entrypoints := iscripts.entrypoints ++ [name] }
      if seen.contains bank_addr then
        ROMReader.readIscriptsLoop messages bank rest iscripts seen
          reffable shops fp
      else do
        let seen := seen ++ [bank_addr]
        let r ← ROMReader.read_iscript (0x20000 + fp.data.length) fp
          messages bank bank_addr reffable shops true true (some name)
        let (new_iscripts, reffable, shops, fp) := r
        let iscripts ← iscripts.add_many new_iscripts
        ROMReader.readIscriptsLoop messages bank rest iscripts seen
          reffable shops fp

/-- Embedding of `ROMReader._read_iscripts` (decoder.py lines 285-333). -/
def ROMReader.read_iscripts (fp : ROMIOBuf) (rom : FaxanaduROM)
    (messages : Messages) :
    Except String (IScripts × List (String × Shop) × ROMIOBuf) :=
  let bank := get_bank_for rom.iscript_addrs_offset
  let fp := fp.seek rom.iscript_addrs_offset
  let ar := ROMDecoder.iter_decode_iscript_addrs fp rom.max_iscript_addrs
  ROMReader.readIscriptsLoop messages bank ar.1.enum {} [] [] [] ar.2

/-- Embedding of `ROMReader.read` (decoder.py lines 237-265): strip the
16-byte file header, decode messages at `messages_offset`, then decode
the script graph, producing the populated ROM state. -/
def ROMReader.read (rom : FaxanaduROM) (file : List Nat) :
    Except String FaxanaduROM := do
  let fp : ROMIOBuf := ⟨file.drop 16, 0⟩
  let fp := fp.seek rom.messages_offset
  let mr ← ROMDecoder.decode_messages (fp.data.length + 2) fp {}
  let (messages, fp) := mr
  let ir ← ROMReader.read_iscripts fp rom messages
  .ok { rom with messages := messages, iscripts := ir.1, shops := ir.2.1 }

/-! ## Structural lemmas: how many bytes each encoder writes -/

theorem ROMIOBuf.writeByte_pos (fp : ROMIOBuf) (b : Nat) :
    (fp.writeByte b).pos = fp.pos + 1 := rfl

theorem ROMIOBuf.write_value_pos (fp : ROMIOBuf) (v n : Nat) :
    (fp.write_value v n).pos = fp.pos + n := by
  induction n generalizing fp with
  | zero => simp [ROMIOBuf.write_value]
  | succ n ih =>
    unfold ROMIOBuf.write_value at ih ⊢
    rw [List.range_succ, List.foldl_append]
    simp only [List.foldl_cons, List.foldl_nil]
    rw [ROMIOBuf.writeByte_pos, ih]
    omega

theorem ROMIOBuf.writeBytes_pos (fp : ROMIOBuf) (bs : List Nat) :
    (fp.writeBytes bs).pos = fp.pos + bs.length := by
  induction bs generalizing fp with
  | nil => simp [ROMIOBuf.writeBytes]
  | cons b rest ih =>
    unfold ROMIOBuf.writeBytes at ih ⊢
    simp only [List.foldl_cons]
    rw [ih, ROMIOBuf.writeByte_pos]
    simp
    omega

/-- Number of bytes one action emits: the opcode byte plus each
parameter's declared size. -/
def iscriptActionSize (a : IScriptAction) : Nat :=
  1 + (a.params.map (fun p => p.info.size)).sum

/-- Number of bytes one code segment emits (labels emit none). -/
def segmentSize : IScriptCodeSegment → Nat
  | .label _ => 0
  | .action a => iscriptActionSize a

/-- Number of bytes one script emits. -/
def iscriptSize (s : IScript) : Nat :=
  (if s.entity.isSome then 1 else 0) + (s.code.map segmentSize).sum

/-- Number of bytes one shop emits: 3 per item plus the sentinel. -/
def shopSize (s : Shop) : Nat :=
  3 * s.items.length + 1

theorem encodeActionParam_pos (messages : Messages) (st : EncState)
    (param : IScriptActionParamValue) (st2 : EncState)
    (h : ROMEncoder.encodeActionParam messages st param = .ok st2) :
    st2.fp.pos = st.fp.pos + param.info.size := by
  unfold ROMEncoder.encodeActionParam at h
  cases hpt : param.info.type <;> cases hpv : param.value <;>
    rw [hpt, hpv] at h <;> (try split at h) <;> (try split at h) <;>
    first
      | exact Except.noConfusion h
      | (injection h with h2
         rw [← h2]
         simp [ROMIOBuf.write_value_pos])
      | simp_all [ROMIOBuf.write_value_pos]

theorem params_fold_pos (messages : Messages)
    (params : List IScriptActionParamValue) (st st2 : EncState)
    (h : params.foldlM (ROMEncoder.encodeActionParam messages) st = .ok st2) :
    st2.fp.pos = st.fp.pos + (params.map (fun p => p.info.size)).sum := by
  induction params generalizing st with
  | nil =>
    simp [List.foldlM_nil, pure, Except.pure] at h
    rw [← h]
    simp
  | cons p rest ih =>
    rw [List.foldlM_cons] at h
    cases hstep : ROMEncoder.encodeActionParam messages st p with
    | error e => rw [hstep] at h; exact Except.noConfusion h
    | ok st1 =>
      rw [hstep] at h
      have h2 : rest.foldlM (ROMEncoder.encodeActionParam messages) st1 =
          .ok st2 := h
      have h3 := ih st1 h2
      have h4 := encodeActionParam_pos messages st p st1 hstep
      simp only [List.map_cons, List.sum_cons]
      omega

theorem encode_iscript_action_pos (st : EncState) (a : IScriptAction)
    (messages : Messages) (st2 : EncState)
    (h : ROMEncoder.encode_iscript_action st a messages = .ok st2) :
    st2.fp.pos = st.fp.pos + iscriptActionSize a := by
  unfold ROMEncoder.encode_iscript_action at h
  have h2 := params_fold_pos messages a.params _ st2 h
  rw [h2]
  simp only [ROMIOBuf.write_value_pos, iscriptActionSize]
  omega

theorem code_fold_pos (messages : Messages) (cur_addr : Nat)
    (code : List IScriptCodeSegment) (st st2 : EncState)
    (h : code.foldlM (ROMEncoder.encodeIScriptSegment messages cur_addr) st =
      .ok st2) :
    st2.fp.pos = st.fp.pos + (code.map segmentSize).sum := by
  induction code generalizing st with
  | nil =>
    simp [List.foldlM_nil, pure, Except.pure] at h
    rw [← h]
    simp
  | cons seg rest ih =>
    rw [List.foldlM_cons] at h
    cases hstep : ROMEncoder.encodeIScriptSegment messages cur_addr st seg with
    | error e => rw [hstep] at h; exact Except.noConfusion h
    | ok st1 =>
      rw [hstep] at h
      have h3 := ih st1 h
      have h4 : st1.fp.pos = st.fp.pos + segmentSize seg := by
        cases seg with
        | label l =>
          unfold ROMEncoder.encodeIScriptSegment at hstep
          injection hstep with h5
          rw [← h5]
          simp [segmentSize]
        | action a =>
          exact encode_iscript_action_pos st a messages st1 hstep
      simp only [List.map_cons, List.sum_cons]
      omega

theorem encode_iscript_pos (st : EncState) (iscript : IScript)
    (messages : Messages) (st2 : EncState)
    (h : ROMEncoder.encode_iscript st iscript messages = .ok st2) :
    st2.fp.pos = st.fp.pos + iscriptSize iscript := by
  unfold ROMEncoder.encode_iscript at h
  cases he : iscript.entity with
  | some e =>
    rw [he] at h
    have h2 := code_fold_pos messages st.fp.pos iscript.code _ st2 h
    rw [h2]
    simp [ROMIOBuf.write_value_pos, iscriptSize, he]
    omega
  | none =>
    rw [he] at h
    have h2 := code_fold_pos messages st.fp.pos iscript.code _ st2 h
    rw [h2]
    simp [iscriptSize, he]

theorem encode_shop_pos (fp : ROMIOBuf) (shop : Shop) :
    (ROMEncoder.encode_shop fp shop).pos = fp.pos + shopSize shop := by
  unfold ROMEncoder.encode_shop
  have h : ∀ (items : List ShopItem) (fp : ROMIOBuf),
      (items.foldl (fun fp shop_item =>
        (fp.write_value shop_item.item 1).write_value shop_item.price 2)
        fp).pos = fp.pos + 3 * items.length := by
    intro items
    induction items with
    | nil => intro fp; simp
    | cons it rest ih =>
      intro fp
      simp only [List.foldl_cons]
      rw [ih]
      simp [ROMIOBuf.write_value_pos]
      omega
  rw [ROMIOBuf.writeBytes_pos, h]
  simp [shopSize]
  omega

/-! ## Pointwise characterization of buffer writes -/

theorem splice_get_self (d : List Nat) (p b : Nat) (tail : List Nat)
    (hp : p ≤ d.length) :
    (d.take p ++ [b] ++ tail).get? p = some b := by
  rw [List.append_assoc,
    List.get?_append_right (by simp [List.length_take]; try omega)]
  simp [List.length_take, Nat.min_eq_left hp]

theorem splice_get_lt (d : List Nat) (p b : Nat) (tail : List Nat) (i : Nat)
    (hi : i < p) (hp : p ≤ d.length) :
    (d.take p ++ [b] ++ tail).get? i = d.get? i := by
  rw [List.append_assoc, List.get?_append (by simp [List.length_take]; omega)]
  exact List.get?_take hi

theorem ROMIOBuf.writeByte_len (fp : ROMIOBuf) (b : Nat) :
    (fp.writeByte b).data.length = max fp.data.length (fp.pos + 1) := by
  unfold ROMIOBuf.writeByte
  by_cases h : fp.data.length < fp.pos <;> simp [h] <;> omega

theorem ROMIOBuf.writeByte_get_self (fp : ROMIOBuf) (b : Nat) :
    (fp.writeByte b).data.get? fp.pos = some b := by
  unfold ROMIOBuf.writeByte
  by_cases h : fp.data.length < fp.pos <;> simp only [h, if_true, if_false]
  · exact splice_get_self _ _ _ _ (by simp; omega)
  · exact splice_get_self _ _ _ _ (by omega)

theorem ROMIOBuf.writeByte_get_lt (fp : ROMIOBuf) (b i : Nat) (h1 : i < fp.pos)
    (h2 : i < fp.data.length) :
    (fp.writeByte b).data.get? i = fp.data.get? i := by
  unfold ROMIOBuf.writeByte
  by_cases h : fp.data.length < fp.pos <;> simp only [h, if_true, if_false]
  · rw [splice_get_lt _ _ _ _ _ h1 (by simp; omega)]
    rw [List.get?_append h2]
  · exact splice_get_lt _ _ _ _ _ h1 (by omega)

theorem ROMIOBuf.writeBytes_preserves (fp : ROMIOBuf) (bs : List Nat) (i : Nat)
    (h1 : i < fp.pos) (h2 : i < fp.data.length) :
    (fp.writeBytes bs).data.get? i = fp.data.get? i := by
  induction bs generalizing fp with
  | nil => rfl
  | cons b rest ih =>
    unfold ROMIOBuf.writeBytes at ih ⊢
    simp only [List.foldl_cons]
    rw [ih (fp.writeByte b) (by rw [ROMIOBuf.writeByte_pos]; omega)
      (by rw [ROMIOBuf.writeByte_len]; omega)]
    exact ROMIOBuf.writeByte_get_lt fp b i h1 h2

theorem ROMIOBuf.writeBytes_cons (fp : ROMIOBuf) (b : Nat) (rest : List Nat) :
    fp.writeBytes (b :: rest) = (fp.writeByte b).writeBytes rest := rfl

theorem ROMIOBuf.writeBytes_get (fp : ROMIOBuf) (bs : List Nat) (j : Nat)
    (h : j < bs.length) :
    (fp.writeBytes bs).data.get? (fp.pos + j) = bs.get? j := by
  induction bs generalizing fp j with
  | nil => simp at h
  | cons b rest ih =>
    rw [ROMIOBuf.writeBytes_cons]
    cases j with
    | zero =>
      rw [Nat.add_zero]
      rw [ROMIOBuf.writeBytes_preserves (fp.writeByte b) rest fp.pos
        (by rw [ROMIOBuf.writeByte_pos]; omega)
        (by rw [ROMIOBuf.writeByte_len]; omega)]
      exact ROMIOBuf.writeByte_get_self fp b
    | succ k =>
      have h2 : fp.pos + (k + 1) = (fp.writeByte b).pos + k := by
        rw [ROMIOBuf.writeByte_pos]; omega
      rw [h2, ih (fp.writeByte b) k (by simp at h; omega)]
      rfl

theorem ROMIOBuf.writeBytes_append2 (fp : ROMIOBuf) (xs ys : List Nat) :
    (fp.writeBytes xs).writeBytes ys = fp.writeBytes (xs ++ ys) := by
  unfold ROMIOBuf.writeBytes
  rw [List.foldl_append]

/-! ## Layout of the scripts+shops region -/

/-- Bank-relative start addresses, in collection order, of the scripts
whose name is in the entrypoint list, for scripts laid out contiguously
from `pos`. -/
def collectEntryAddrs (entrypoints : List String) (scripts : List IScript)
    (pos : Nat) : List Nat :=
  match scripts with
  | [] => []
  | s :: rest =>
      (if entrypoints.contains s.name then [get_bank_addr_for pos] else []) ++
        collectEntryAddrs entrypoints rest (pos + iscriptSize s)

theorem patchIScriptsStep_spec (rom : FaxanaduROM) (ps ps2 : PatchState)
    (s : IScript) (h : ROMPatcher.patchIScriptsStep rom ps s = .ok ps2) :
    ps2.fp.pos = ps.fp.pos + iscriptSize s ∧
      ps2.total_bytes = ps.total_bytes + iscriptSize s ∧
      ps2.entrypoint_iscript_rom_offsets =
        ps.entrypoint_iscript_rom_offsets ++
          (if rom.iscripts.entrypoints.contains s.name then
            [get_bank_addr_for ps.fp.pos]
          else []) := by
  unfold ROMPatcher.patchIScriptsStep at h
  cases henc : ROMEncoder.encode_iscript
      ⟨ps.fp, ps.iscript_refs, ps.shop_refs, ps.iscript_rom_offsets⟩
      s rom.messages with
  | error e =>
    rw [henc] at h
    exact Except.noConfusion h
  | ok st =>
    rw [henc] at h
    have hpos : st.fp.pos = ps.fp.pos + iscriptSize s :=
      encode_iscript_pos _ s rom.messages st henc
    injection h with h2
    rw [← h2]
    refine ⟨hpos, ?_, ?_⟩
    · show ps.total_bytes + (st.fp.pos - ps.fp.pos) =
        ps.total_bytes + iscriptSize s
      omega
    · show (if rom.iscripts.entrypoints.contains s.name = true then
          ps.entrypoint_iscript_rom_offsets ++ [get_bank_addr_for ps.fp.pos]
        else ps.entrypoint_iscript_rom_offsets) = _
      split <;> simp

theorem scriptsFold_spec (rom : FaxanaduROM) (ss : List IScript)
    (ps ps2 : PatchState)
    (h : ss.foldlM (ROMPatcher.patchIScriptsStep rom) ps = .ok ps2) :
    ps2.fp.pos = ps.fp.pos + (ss.map iscriptSize).sum ∧
      ps2.total_bytes = ps.total_bytes + (ss.map iscriptSize).sum ∧
      ps2.entrypoint_iscript_rom_offsets =
        ps.entrypoint_iscript_rom_offsets ++
          collectEntryAddrs rom.iscripts.entrypoints ss ps.fp.pos := by
  induction ss generalizing ps with
  | nil =>
    simp [List.foldlM_nil, pure, Except.pure] at h
    rw [← h]
    simp [collectEntryAddrs]
  | cons s rest ih =>
    rw [List.foldlM_cons] at h
    cases hstep : ROMPatcher.patchIScriptsStep rom ps s with
    | error e => rw [hstep] at h; exact Except.noConfusion h
    | ok ps1 =>
      rw [hstep] at h
      have h2 : rest.foldlM (ROMPatcher.patchIScriptsStep rom) ps1 =
          .ok ps2 := h
      obtain ⟨hpos, htot, hentry⟩ := patchIScriptsStep_spec rom ps ps1 s hstep
      obtain ⟨hpos2, htot2, hentry2⟩ := ih ps1 h2
      refine ⟨by simp only [List.map_cons, List.sum_cons]; omega,
        by simp only [List.map_cons, List.sum_cons]; omega, ?_⟩
      rw [hentry2, hentry, collectEntryAddrs, hpos]
      simp [List.append_assoc]

theorem patchShopStep_spec (ps : PatchState) (shop : Shop) :
    (ROMPatcher.patchShopStep ps shop).fp.pos = ps.fp.pos + shopSize shop ∧
      (ROMPatcher.patchShopStep ps shop).total_bytes =
        ps.total_bytes + shopSize shop ∧
      (ROMPatcher.patchShopStep ps shop).entrypoint_iscript_rom_offsets =
        ps.entrypoint_iscript_rom_offsets := by
  unfold ROMPatcher.patchShopStep
  have h := encode_shop_pos ps.fp shop
  refine ⟨h, ?_, rfl⟩
  show ps.total_bytes + ((ROMEncoder.encode_shop ps.fp shop).pos - ps.fp.pos)
    = ps.total_bytes + shopSize shop
  omega

theorem shopsFold_spec (shops : List Shop) (ps : PatchState) :
    (shops.foldl ROMPatcher.patchShopStep ps).fp.pos =
        ps.fp.pos + (shops.map shopSize).sum ∧
      (shops.foldl ROMPatcher.patchShopStep ps).total_bytes =
        ps.total_bytes + (shops.map shopSize).sum ∧
      (shops.foldl ROMPatcher.patchShopStep ps).entrypoint_iscript_rom_offsets
        = ps.entrypoint_iscript_rom_offsets := by
  induction shops generalizing ps with
  | nil => simp
  | cons shop rest ih =>
    simp only [List.foldl_cons]
    obtain ⟨h1, h2, h3⟩ := patchShopStep_spec ps shop
    obtain ⟨h4, h5, h6⟩ := ih (ROMPatcher.patchShopStep ps shop)
    refine ⟨?_, ?_, by rw [h6, h3]⟩
    · rw [h4, h1]; simp; omega
    · rw [h5, h2]; simp; omega

theorem patchIScriptsShops_spec (rom : FaxanaduROM) (ps : PatchState) :
    (ROMPatcher.patchIScriptsShops rom ps).fp.pos =
        ps.fp.pos +
          ((sortShopsByName (rom.shops.map Prod.snd)).map shopSize).sum ∧
      (ROMPatcher.patchIScriptsShops rom ps).total_bytes =
        ps.total_bytes +
          ((sortShopsByName (rom.shops.map Prod.snd)).map shopSize).sum ∧
      (ROMPatcher.patchIScriptsShops rom ps).entrypoint_iscript_rom_offsets =
        ps.entrypoint_iscript_rom_offsets := by
  unfold ROMPatcher.patchIScriptsShops
  exact shopsFold_spec _ ps

theorem padIScriptsRegion_eq_writeBytes (fp : ROMIOBuf) (n : Nat) :
    ROMPatcher.padIScriptsRegion fp n = fp.writeBytes (List.replicate n 0) := by
  unfold ROMPatcher.padIScriptsRegion ROMIOBuf.writeBytes
  induction n generalizing fp with
  | zero => simp
  | succ n ih =>
    rw [List.range_succ, List.replicate_succ', List.foldl_append,
      List.foldl_append]
    simp only [List.foldl_cons, List.foldl_nil]
    rw [ih]

/-- C7: `_patch_iscripts` compares the total byte count written for
scripts plus shops against `max_iscripts_len`: over the limit it fails
with a capacity error naming the limit and the actual size; otherwise
the padding loop writes exactly `limit - total` zero bytes, leaving the
write position exactly at the end of the region. -/
theorem iscripts_capacity_and_padding (fp : ROMIOBuf) (rom : FaxanaduROM)
    (ps1 : PatchState)
    (h1 : ROMPatcher.patchIScriptsScripts rom
      { fp := fp.seek rom.iscripts_offset } = .ok ps1) :
    ((ROMPatcher.patchIScriptsShops rom ps1).total_bytes >
        rom.max_iscripts_len →
      ROMPatcher.patch_iscripts fp rom = .error
        ("The compiled scripts are too large for the ROM. It must be "
          ++ toString rom.max_iscripts_len ++ " bytes or less, but was "
          ++ toString (ROMPatcher.patchIScriptsShops rom ps1).total_bytes
          ++ " bytes.")) ∧
    ((ROMPatcher.patchIScriptsShops rom ps1).total_bytes ≤
        rom.max_iscripts_len →
      (ROMPatcher.padIScriptsRegion (ROMPatcher.patchIScriptsShops rom ps1).fp
          (rom.max_iscripts_len -
            (ROMPatcher.patchIScriptsShops rom ps1).total_bytes)).pos =
        rom.iscripts_offset + rom.max_iscripts_len ∧
      ∀ j, j < rom.max_iscripts_len -
          (ROMPatcher.patchIScriptsShops rom ps1).total_bytes →
        (ROMPatcher.padIScriptsRegion
            (ROMPatcher.patchIScriptsShops rom ps1).fp
            (rom.max_iscripts_len -
              (ROMPatcher.patchIScriptsShops rom ps1).total_bytes)).data.get?
          ((ROMPatcher.patchIScriptsShops rom ps1).fp.pos + j) = some 0) := by
  obtain ⟨hp1, ht1, _⟩ := scriptsFold_spec rom rom.iscripts.iscripts _ ps1 h1
  obtain ⟨hp2, ht2, _⟩ := patchIScriptsShops_spec rom ps1
  have hp1b : ps1.fp.pos = rom.iscripts_offset +
      (List.map iscriptSize rom.iscripts.iscripts).sum := hp1
  have ht1b : ps1.total_bytes =
      0 + (List.map iscriptSize rom.iscripts.iscripts).sum := ht1
  constructor
  · intro hgt
    simp only [ROMPatcher.patch_iscripts]
    rw [h1]
    show (if (ROMPatcher.patchIScriptsShops rom ps1).total_bytes >
        rom.max_iscripts_len then _ else _) = _
    rw [if_pos hgt]
  · intro hle
    rw [padIScriptsRegion_eq_writeBytes, ROMIOBuf.writeBytes_pos]
    constructor
    · simp only [List.length_replicate]
      omega
    · intro j hj
      rw [ROMIOBuf.writeBytes_get _ _ j (by simp; omega)]
      simp [hj]

/-- Concrete script ("end" action only) and ROM configuration used as
witnesses for the patcher theorems. -/
def c7end : IScriptAction :=
  { action_type := { action_id := 0x00, name := "end", ends := true },
    params := [] }

def c7rom : FaxanaduROM :=
  { iscripts := { iscripts := [⟨[.action c7end], "A", none⟩],
                  entrypoints := ["A"] },
    messages_offset := 30, max_iscript_addrs := 2,
    iscript_addrs_offset := 0, iscripts_offset := 4,
    max_iscripts_len := 10, max_messages_len := 5 }

def c7ps1 : PatchState :=
  { fp := { data := List.replicate 31 0, pos := 5 },
    iscript_refs := [], shop_refs := [],
    iscript_rom_offsets := [("A", 4)], shop_rom_offsets := [],
    entrypoint_iscript_rom_offsets := [32772], total_bytes := 1 }

/-- Witness for `iscripts_capacity_and_padding` on a one-script ROM. -/
theorem iscripts_capacity_and_padding_witness :
    ROMPatcher.patchIScriptsScripts c7rom
        { fp := ROMIOBuf.seek ⟨List.replicate 31 0, 0⟩ c7rom.iscripts_offset } =
      .ok c7ps1 ∧
    (((ROMPatcher.patchIScriptsShops c7rom c7ps1).total_bytes >
        c7rom.max_iscripts_len →
      ROMPatcher.patch_iscripts ⟨List.replicate 31 0, 0⟩ c7rom = .error
        ("The compiled scripts are too large for the ROM. It must be "
          ++ toString c7rom.max_iscripts_len ++ " bytes or less, but was "
          ++ toString (ROMPatcher.patchIScriptsShops c7rom c7ps1).total_bytes
          ++ " bytes.")) ∧
    ((ROMPatcher.patchIScriptsShops c7rom c7ps1).total_bytes ≤
        c7rom.max_iscripts_len →
      (ROMPatcher.padIScriptsRegion
          (ROMPatcher.patchIScriptsShops c7rom c7ps1).fp
          (c7rom.max_iscripts_len -
            (ROMPatcher.patchIScriptsShops c7rom c7ps1).total_bytes)).pos =
        c7rom.iscripts_offset + c7rom.max_iscripts_len ∧
      ∀ j, j < c7rom.max_iscripts_len -
          (ROMPatcher.patchIScriptsShops c7rom c7ps1).total_bytes →
        (ROMPatcher.padIScriptsRegion
            (ROMPatcher.patchIScriptsShops c7rom c7ps1).fp
            (c7rom.max_iscripts_len -
              (ROMPatcher.patchIScriptsShops c7rom c7ps1).total_bytes)).data.get?
          ((ROMPatcher.patchIScriptsShops c7rom c7ps1).fp.pos + j) =
            some 0)) :=
  ⟨by rfl, iscripts_capacity_and_padding ⟨List.replicate 31 0, 0⟩ c7rom
    c7ps1 (by rfl)⟩

/-- C8: when the re-encoded messages (terminators included) exceed
`max_messages_len`, patching fails with a capacity error reporting the
limit and the actual size, and no patched output is produced. -/
theorem messages_capacity (rom : FaxanaduROM) (file : List Nat)
    (h : (ROMEncoder.encode_messages
        (ROMIOBuf.seek ⟨file.drop 16, 0⟩ rom.messages_offset)
        rom.messages).pos - rom.messages_offset > rom.max_messages_len) :
    ROMPatcher.patch rom file = .error
      ("The compiled message strings are too large for the ROM. It "
        ++ "must be " ++ toString rom.max_messages_len
        ++ " bytes or less, but was "
        ++ toString ((ROMEncoder.encode_messages
            (ROMIOBuf.seek ⟨file.drop 16, 0⟩ rom.messages_offset)
            rom.messages).pos - rom.messages_offset) ++ " bytes.") ∧
      ∀ out, ROMPatcher.patch rom file ≠ .ok out := by
  have herr : ROMPatcher.patch rom file = .error
      ("The compiled message strings are too large for the ROM. It "
        ++ "must be " ++ toString rom.max_messages_len
        ++ " bytes or less, but was "
        ++ toString ((ROMEncoder.encode_messages
            (ROMIOBuf.seek ⟨file.drop 16, 0⟩ rom.messages_offset)
            rom.messages).pos - rom.messages_offset) ++ " bytes.") := by
    simp only [ROMPatcher.patch, ROMPatcher.patch_messages]
    rw [if_pos h]
    rfl
  refine ⟨herr, ?_⟩
  intro out hout
  rw [herr] at hout
  exact Except.noConfusion hout

/-- Concrete ROM configuration whose single one-character message
(2 encoded bytes) exceeds a zero-byte message budget. -/
def c8rom : FaxanaduROM :=
  { messages := { msgs := [⟨"msg-01", "A"⟩] },
    messages_offset := 0, max_messages_len := 0,
    max_iscript_addrs := 2, iscript_addrs_offset := 2,
    iscripts_offset := 6, max_iscripts_len := 4 }

/-- Witness for `messages_capacity`. -/
theorem messages_capacity_witness :
    ((ROMEncoder.encode_messages
        (ROMIOBuf.seek ⟨(List.replicate 20 0).drop 16, 0⟩ c8rom.messages_offset)
        c8rom.messages).pos - c8rom.messages_offset >
      c8rom.max_messages_len) ∧
    (ROMPatcher.patch c8rom (List.replicate 20 0) = .error
      ("The compiled message strings are too large for the ROM. It "
        ++ "must be " ++ toString c8rom.max_messages_len
        ++ " bytes or less, but was "
        ++ toString ((ROMEncoder.encode_messages
            (ROMIOBuf.seek ⟨(List.replicate 20 0).drop 16, 0⟩
              c8rom.messages_offset)
            c8rom.messages).pos - c8rom.messages_offset) ++ " bytes.") ∧
      ∀ out, ROMPatcher.patch c8rom (List.replicate 20 0) ≠ .ok out) :=
  ⟨by decide, messages_capacity c8rom (List.replicate 20 0) (by decide)⟩

/-! ## Concrete decode/re-encode round trip (claim C1)

A 47-byte image under a small configuration: entrypoint table at body
offset 0 (two slots, both holding bank address `0x8004`), the script
region at body offset 4 holding one entrypoint script (entity byte,
`if-quest` whose jump targets the following `end` action at `0x8009`),
and an empty message table at body offset 30. -/

def c1rom : FaxanaduROM :=
  { messages_offset := 30, max_iscript_addrs := 2, iscript_addrs_offset := 0,
    iscripts_offset := 4, max_iscripts_len := 10, max_messages_len := 5 }

def c1file : List Nat :=
  List.replicate 16 0 ++
  ([0x04, 0x04, 0x80, 0x80] ++ [0x00, 0x0B, 0x00, 0x09, 0x80, 0x00] ++
   List.replicate 20 0 ++ [0x00])

/-- C1 (code bug): decoding `c1file` succeeds, and re-patching the
unedited graph rewrites the jump operand at body offset 7 (inside the
scripts region, which spans body offsets 4 to 13) from `0x09` (the
low byte of the label address `0xA009`-style target `0x8009`) to
`0x04` (the low byte of the script start address `0x8004`), because
`encode_iscript` records every label at the stale `cur_addr`.  The
original byte is not zero, so the difference is not region
zero-padding: the round trip is not byte-for-byte identical. -/
theorem decode_reencode_differs_in_scripts_region :
    (ROMReader.read c1rom c1file).isOk = true ∧
      ((ROMReader.read c1rom c1file).bind
        (fun r => ROMPatcher.patch r c1file)).map
          (fun out => out.getD (16 + 7) 999) = .ok 0x04 ∧
      c1file.getD (16 + 7) 999 = 0x09 ∧
      (0x04 : Nat) ≠ 0x09 ∧ (0x09 : Nat) ≠ 0 ∧
      c1rom.iscripts_offset ≤ 7 ∧
      7 < c1rom.iscripts_offset + c1rom.max_iscripts_len := by
  refine ⟨?_, ?_, ?_, ?_, ?_, ?_, ?_⟩ <;> first | rfl | decide

/-! ## Label offsets during script encoding (claim C2) -/

def c2ifquest : IScriptAction :=
  { action_type :=
      { action_id := 0x0B, name := "if-quest",
        params := [{ name := "quest" },
                   { name := "then-jump", size := 2,
                     type := .script_jump_addr }] },
    params :=
      [{ value := .num 0, info := { name := "quest" } },
       { value := .target "intro-exposition" (some "0x8009"),
         info := { name := "then-jump", size := 2,
                   type := .script_jump_addr } }] }

def c2end : IScriptAction :=
  { action_type := { action_id := 0x00, name := "end", ends := true },
    params := [] }

def c2script : IScript :=
  { code := [.label ⟨"0x8005"⟩, .action c2ifquest, .label ⟨"0x8009"⟩,
             .action c2end],
    name := "intro-exposition", entity := some 0 }

def c2prefix : IScript :=
  { code := [.label ⟨"0x8005"⟩, .action c2ifquest],
    name := "intro-exposition", entity := some 0 }

/-- C2 (code bug): encoding `c2script` from write position 4 records
the label `0x8009` at offset 4 — the script's own start offset — even
though the label is encountered after the entity byte and a 4-byte
action, i.e. at write position 9 (the final position of encoding just
that prefix).  The claim (and the spec) say the label's current write
position is recorded; the code stores the stale `cur_addr`. -/
theorem label_offset_recorded_as_script_start :
    (ROMEncoder.encode_iscript ⟨⟨List.replicate 31 0, 4⟩, [], [], []⟩
        c2script {}).map
      (fun st => (dget st.iscript_rom_offsets "0x8009",
        dget st.iscript_rom_offsets "intro-exposition", st.fp.pos)) =
      .ok (some 4, some 4, 10) ∧
    (ROMEncoder.encode_iscript ⟨⟨List.replicate 31 0, 4⟩, [], [], []⟩
        c2prefix {}).map (fun st => st.fp.pos) = .ok 9 ∧
    (4 : Nat) ≠ 9 := by
  refine ⟨?_, ?_, ?_⟩ <;> first | rfl | decide

/-! ## Unknown opcode handling (claim C4) -/

/-- C4 counterexample: the same error report, `Unknown action ID 22`,
is produced for an unknown opcode at position 0 and at position 1 of
the same buffer — the report names the opcode byte but cannot name the
position, contradicting the claim that it names both. -/
theorem unknown_opcode_error_omits_position :
    ROMDecoder.read_iscript_action ⟨[0x16, 0x16], 0⟩ =
        .error "Unknown action ID 22" ∧
      ROMDecoder.read_iscript_action ⟨[0x16, 0x16], 1⟩ =
        .error "Unknown action ID 22" ∧
      (0 : Nat) ≠ 1 :=
  ⟨rfl, rfl, by decide⟩

/-- C4 amended: for every buffer position holding an opcode byte absent
from `ACTION_TYPES`, decoding the action fails with the fatal error
naming the opcode byte in decimal (`Unknown action ID {id}`), and no
action is returned; the position is not part of the report. -/
theorem unknown_opcode_fatal (fp : ROMIOBuf) (b : Nat)
    (h1 : fp.data.get? fp.pos = some b)
    (h2 : dget ACTION_TYPES b = none) :
    ROMDecoder.read_iscript_action fp =
      .error ("Unknown action ID " ++ toString b) := by
  have hlt : fp.pos < fp.data.length := by
    by_contra hge
    rw [List.get?_eq_none.mpr (by omega)] at h1
    exact Option.noConfusion h1
  have hgd : fp.data.getD fp.pos 0 = b := by
    have h3 := List.get?_eq_get hlt
    rw [h3] at h1
    have h4 := Option.some.inj h1
    rw [List.getD_eq_getElem _ _ hlt]
    exact h4
  have h0 : ROMIOBuf.readByte0 fp = (b, { fp with pos := fp.pos + 1 }) := by
    have h5 : ROMIOBuf.readByte0 ⟨fp.data, fp.pos⟩ =
        (fp.data.getD fp.pos 0, ⟨fp.data, fp.pos + 1⟩) :=
      ROMIOBuf.readByte0_in_range fp.data fp.pos hlt
    rw [hgd] at h5
    exact h5
  have hb : fp.read_value 1 = (b, { fp with pos := fp.pos + 1 }) := by
    unfold ROMIOBuf.read_value
    rw [show List.range 1 = [0] from rfl]
    simp only [List.foldl_cons, List.foldl_nil]
    show ((0 : Nat) ||| ((ROMIOBuf.readByte0 fp).1 <<< (8 * 0)),
      (ROMIOBuf.readByte0 fp).2) = _
    rw [h0]
    simp
  unfold ROMDecoder.read_iscript_action
  rw [hb]
  simp only [h2]

/-- Witness for `unknown_opcode_fatal` at opcode `0x16` (decimal 22),
the opcode commented out of the static table. -/
theorem unknown_opcode_fatal_witness :
    (ROMIOBuf.mk [0x16] 0).data.get? (ROMIOBuf.mk [0x16] 0).pos = some 0x16 ∧
      dget ACTION_TYPES 0x16 = none ∧
      ROMDecoder.read_iscript_action ⟨[0x16], 0⟩ =
        .error ("Unknown action ID " ++ toString (0x16 : Nat)) :=
  ⟨by decide, by decide, unknown_opcode_fatal ⟨[0x16], 0⟩ 0x16 (by decide)
    (by decide)⟩

/-! ## Entrypoint address table construction (claim C5) -/

def c5rom : FaxanaduROM :=
  { iscripts := { iscripts := [⟨[.action c7end], "A", none⟩,
                               ⟨[.action c7end], "B", none⟩],
                  entrypoints := ["B", "A"] },
    messages_offset := 30, max_iscript_addrs := 2,
    iscript_addrs_offset := 0, iscripts_offset := 4,
    max_iscripts_len := 10, max_messages_len := 5 }

/-- C5 counterexample: with collection order `[A, B]` and entrypoint
list `["B", "A"]`, the emitted table's first slot holds `0x04` — the
low byte of A's bank-relative start address `0x8004` — although the
entrypoint list's first position names `B`, whose recorded start
offset is 5 (bank address `0x8005`, low byte `0x05`).  The table is
filled in collection order, not in entrypoint-list order, so it does
not hold one address per entrypoint-list position in that list's
order. -/
theorem entrypoint_table_not_in_list_order :
    (ROMPatcher.patch_iscripts ⟨List.replicate 31 0, 0⟩ c5rom).map
        (fun fp => fp.data.take 4) = .ok [0x04, 0x05, 0x80, 0x80] ∧
      c5rom.iscripts.entrypoints.getD 0 "" = "B" ∧
      (ROMPatcher.patchIScriptsScripts c5rom
          { fp := ROMIOBuf.seek ⟨List.replicate 31 0, 0⟩
              c5rom.iscripts_offset }).map
        (fun ps => dget ps.iscript_rom_offsets "B") = .ok (some 5) ∧
      get_bank_addr_for 5 &&& 0xFF = 0x05 ∧
      (0x04 : Nat) ≠ 0x05 := by
  refine ⟨?_, ?_, ?_, ?_, ?_⟩ <;> first | rfl | decide

/-- The byte image of the entrypoint table: the low bytes of the
collected addresses, then the high bytes, each array zero-padded to
`max_iscript_addrs` entries. -/
def entryAddrTable (rom_offsets : List Nat) (max_iscript_addrs : Nat) :
    List Nat :=
  let iscript_lower_addrs := rom_offsets.map (fun o => o &&& 0xFF)
  let iscript_upper_addrs := rom_offsets.map (fun o => (o >>> 8) &&& 0xFF)
  let padding :=
    if rom_offsets.length < max_iscript_addrs then
      List.replicate (max_iscript_addrs - rom_offsets.length) 0
    else []
  (iscript_lower_addrs ++ padding) ++ (iscript_upper_addrs ++ padding)

theorem encode_iscript_addrs_eq (fp : ROMIOBuf) (offs : List Nat) (maxa : Nat) :
    ROMEncoder.encode_iscript_addrs fp offs maxa =
      fp.writeBytes (entryAddrTable offs maxa) := by
  unfold ROMEncoder.encode_iscript_addrs entryAddrTable
  rw [ROMIOBuf.writeBytes_append2]

/-- C5 amended: the entrypoint address table records, for each script
in collection order whose name is in the entrypoint set, its
bank-relative start address (one address per such script, in
collection order — not one per entrypoint-list position), and the
emitted table is the two parallel low-byte/high-byte arrays of exactly
those addresses, zero-padded up to the fixed maximum entrypoint
count. -/
theorem entrypoint_table_from_collection_order (fp : ROMIOBuf)
    (rom : FaxanaduROM) (ps1 : PatchState)
    (h1 : ROMPatcher.patchIScriptsScripts rom
      { fp := fp.seek rom.iscripts_offset } = .ok ps1)
    (hcount : rom.iscripts.entrypoints.length ≤ rom.max_iscript_addrs) :
    ps1.entrypoint_iscript_rom_offsets =
      collectEntryAddrs rom.iscripts.entrypoints rom.iscripts.iscripts
        rom.iscripts_offset ∧
      ∀ fp2 : ROMIOBuf,
        ROMPatcher.patch_iscript_entrypoints fp2 rom
            ps1.entrypoint_iscript_rom_offsets =
          .ok ((fp2.seek rom.iscript_addrs_offset).writeBytes
            (entryAddrTable ps1.entrypoint_iscript_rom_offsets
              rom.max_iscript_addrs)) ∧
        ∀ j, j < (entryAddrTable ps1.entrypoint_iscript_rom_offsets
            rom.max_iscript_addrs).length →
          ((fp2.seek rom.iscript_addrs_offset).writeBytes
              (entryAddrTable ps1.entrypoint_iscript_rom_offsets
                rom.max_iscript_addrs)).data.get?
            (rom.iscript_addrs_offset + j) =
            (entryAddrTable ps1.entrypoint_iscript_rom_offsets
              rom.max_iscript_addrs).get? j := by
  obtain ⟨_, _, hentry⟩ :=
    scriptsFold_spec rom rom.iscripts.iscripts _ ps1 h1
  have hentryb : ps1.entrypoint_iscript_rom_offsets =
      [] ++ collectEntryAddrs rom.iscripts.entrypoints rom.iscripts.iscripts
        rom.iscripts_offset := hentry
  refine ⟨by rw [hentryb]; simp, ?_⟩
  intro fp2
  constructor
  · unfold ROMPatcher.patch_iscript_entrypoints
    rw [if_neg (by omega), encode_iscript_addrs_eq]
  · intro j hj
    have hw := ROMIOBuf.writeBytes_get (fp2.seek rom.iscript_addrs_offset)
      (entryAddrTable ps1.entrypoint_iscript_rom_offsets
        rom.max_iscript_addrs) j hj
    exact hw

def c5ps1 : PatchState :=
  { fp := { data := List.replicate 31 0, pos := 6 },
    iscript_refs := [], shop_refs := [],
    iscript_rom_offsets := [("A", 4), ("B", 5)], shop_rom_offsets := [],
    entrypoint_iscript_rom_offsets := [32772, 32773], total_bytes := 2 }

/-- Witness for `entrypoint_table_from_collection_order` on `c5rom`. -/
theorem entrypoint_table_from_collection_order_witness :
    (ROMPatcher.patchIScriptsScripts c5rom
        { fp := ROMIOBuf.seek ⟨List.replicate 31 0, 0⟩ c5rom.iscripts_offset } =
      .ok c5ps1) ∧
    c5rom.iscripts.entrypoints.length ≤ c5rom.max_iscript_addrs ∧
    (c5ps1.entrypoint_iscript_rom_offsets =
      collectEntryAddrs c5rom.iscripts.entrypoints c5rom.iscripts.iscripts
        c5rom.iscripts_offset ∧
      ∀ fp2 : ROMIOBuf,
        ROMPatcher.patch_iscript_entrypoints fp2 c5rom
            c5ps1.entrypoint_iscript_rom_offsets =
          .ok ((fp2.seek c5rom.iscript_addrs_offset).writeBytes
            (entryAddrTable c5ps1.entrypoint_iscript_rom_offsets
              c5rom.max_iscript_addrs)) ∧
        ∀ j, j < (entryAddrTable c5ps1.entrypoint_iscript_rom_offsets
            c5rom.max_iscript_addrs).length →
          ((fp2.seek c5rom.iscript_addrs_offset).writeBytes
              (entryAddrTable c5ps1.entrypoint_iscript_rom_offsets
                c5rom.max_iscript_addrs)).data.get?
            (c5rom.iscript_addrs_offset + j) =
            (entryAddrTable c5ps1.entrypoint_iscript_rom_offsets
              c5rom.max_iscript_addrs).get? j) :=
  ⟨by rfl, by decide,
    entrypoint_table_from_collection_order ⟨List.replicate 31 0, 0⟩ c5rom
      c5ps1 (by rfl) (by decide)⟩

/-! ## Entrypoint deduplication (claim C6) -/

/-- Reference behaviour for the entrypoint loop: decode every listed
(position, address) pair unconditionally, naming each script from
`DEFAULT_ISCRIPT_ORDER` by its position, without touching the
entrypoint name list. -/
def ROMReader.decodeEntriesSpec (messages : Messages) (bank : Nat) :
    List (Nat × Nat) → IScripts →
    List (Nat × (String × Option String)) → List (String × Shop) → ROMIOBuf →
    Except String (IScripts × List (String × Shop) × ROMIOBuf)
  | [], iscripts, _reffable, shops, fp => .ok (iscripts, shops, fp)
  | (i, bank_addr) :: rest, iscripts, reffable, shops, fp => do
      let r ← ROMReader.read_iscript (0x20000 + fp.data.length) fp messages
        bank bank_addr reffable shops true true
        (some (DEFAULT_ISCRIPT_ORDER.getD i ""))
      let (new_iscripts, reffable, shops, fp) := r
      let iscripts ← iscripts.add_many new_iscripts
      ROMReader.decodeEntriesSpec messages bank rest iscripts reffable
        shops fp

/-- The (position, address) pairs whose address appears for the first
time, scanning left to right with `seen` already visited. -/
def firstOccPairs (seen : List Nat) : List (Nat × Nat) → List (Nat × Nat)
  | [] => []
  | (i, a) :: rest =>
      if seen.contains a then firstOccPairs seen rest
      else (i, a) :: firstOccPairs (seen ++ [a]) rest

theorem firstOccPairs_nodup (pairs : List (Nat × Nat)) (seen : List Nat) :
    (firstOccPairs seen pairs).Pairwise (fun p q => p.2 ≠ q.2) ∧
      ∀ p ∈ firstOccPairs seen pairs, ¬ p.2 ∈ seen := by
  induction pairs generalizing seen with
  | nil => simp [firstOccPairs]
  | cons pr rest ih =>
    obtain ⟨i, a⟩ := pr
    unfold firstOccPairs
    by_cases hc : seen.contains a
    · rw [if_pos hc]
      exact ih seen
    · rw [if_neg hc]
      obtain ⟨hpw, hmem⟩ := ih (seen ++ [a])
      have hnotmem : ¬ a ∈ seen := by
        intro hmm
        exact hc (List.elem_eq_true_of_mem hmm)
      constructor
      · refine List.Pairwise.cons ?_ hpw
        intro q hq
        have h2 := hmem q hq
        simp at h2
        intro heq
        exact h2.2 (by rw [← heq])
      · intro p hp
        rcases List.mem_cons.mp hp with h | h
        · rw [h]
          exact hnotmem
        · have h2 := hmem p h
          simp at h2
          intro hmm
          exact h2.1 hmm

theorem add_entry (c : IScripts) (s : IScript) (E : List String) :
    IScripts.add { c with entrypoints := E } s =
      (IScripts.add c s).map (fun c2 => { c2 with entrypoints := E }) := by
  unfold IScripts.add
  by_cases hc : c.iscripts.any (fun t => t.name = s.name) = true <;>
    simp [hc, Except.map]

theorem add_many_entry (c : IScripts) (ss : List IScript) (E : List String) :
    IScripts.add_many { c with entrypoints := E } ss =
      (IScripts.add_many c ss).map (fun c2 => { c2 with entrypoints := E }) := by
  induction ss generalizing c with
  | nil => rfl
  | cons s rest ih =>
    unfold IScripts.add_many at ih ⊢
    rw [List.foldlM_cons, List.foldlM_cons, add_entry]
    cases hadd : IScripts.add c s with
    | error e => rfl
    | ok c1 => exact ih c1

/-- C6: for an entrypoint table containing duplicate addresses, the
entrypoint loop behaves exactly like decoding only the first
occurrence of each address (so the bytes at a duplicated address are
decoded once, producing one script), while the entrypoint name list
still receives one entry per table position, in table order; the
deduplicated position list contains each address at most once. -/
theorem dedup_entrypoints (messages : Messages) (bank : Nat)
    (pairs : List (Nat × Nat)) (iscripts0 : IScripts) (seen0 : List Nat)
    (reffable0 : List (Nat × (String × Option String)))
    (shops0 : List (String × Shop)) (fp0 : ROMIOBuf)
    (hidx : ∀ p ∈ pairs, p.1 < DEFAULT_ISCRIPT_ORDER.length)
    (hdup : ∃ i j : Nat, i < j ∧ j < pairs.length ∧
      (pairs.getD i (0, 0)).2 = (pairs.getD j (0, 0)).2) :
    ROMReader.readIscriptsLoop messages bank pairs iscripts0 seen0 reffable0
        shops0 fp0 =
      ROMReader.decodeEntriesSpec messages bank (firstOccPairs seen0 pairs)
        { iscripts0 with entrypoints := (iscripts0.entrypoints ++
            pairs.map (fun p => DEFAULT_ISCRIPT_ORDER.getD p.1 "")) }
        reffable0 shops0 fp0 ∧
      (firstOccPairs seen0 pairs).Pairwise (fun p q => p.2 ≠ q.2) := by
  refine ⟨?_, (firstOccPairs_nodup pairs seen0).1⟩
  clear hdup
  induction pairs generalizing iscripts0 seen0 reffable0 shops0 fp0 with
  | nil =>
    simp [ROMReader.readIscriptsLoop, firstOccPairs,
      ROMReader.decodeEntriesSpec]
  | cons pr rest ih =>
    obtain ⟨i, a⟩ := pr
    have hi : i < DEFAULT_ISCRIPT_ORDER.length :=
      hidx (i, a) (List.mem_cons_self _ _)
    have hname : DEFAULT_ISCRIPT_ORDER.get? i =
        some (DEFAULT_ISCRIPT_ORDER.getD i "") := by
      rw [List.get?_eq_get hi, List.getD_eq_getElem _ _ hi]
      rfl
    have hrest : ∀ p ∈ rest, p.1 < DEFAULT_ISCRIPT_ORDER.length :=
      fun p hp => hidx p (List.mem_cons_of_mem _ hp)
    unfold ROMReader.readIscriptsLoop
    rw [hname]
    show (if seen0.contains a = true then _ else _) = _
    unfold firstOccPairs
    by_cases hc : seen0.contains a = true
    · rw [if_pos hc, if_pos hc]
      rw [ih _ _ _ _ _ hrest]
      simp [List.append_assoc]
    · rw [if_neg hc, if_neg hc]
      unfold ROMReader.decodeEntriesSpec
      cases hr : ROMReader.read_iscript (0x20000 + fp0.data.length) fp0
          messages bank a reffable0 shops0 true true
          (some (DEFAULT_ISCRIPT_ORDER.getD i "")) with
      | error e => rfl
      | ok r =>
        obtain ⟨new_iscripts, reff1, shops1, fp1⟩ := r
        show ((IScripts.add_many { iscripts0 with
            entrypoints := (iscripts0.entrypoints ++
              [DEFAULT_ISCRIPT_ORDER.getD i ""]) } new_iscripts).bind
          (fun iscripts => ROMReader.readIscriptsLoop messages bank rest
            iscripts (seen0 ++ [a]) reff1 shops1 fp1)) =
          ((IScripts.add_many { iscripts0 with
            entrypoints := (iscripts0.entrypoints ++
              ((i, a) :: rest).map
                (fun p => DEFAULT_ISCRIPT_ORDER.getD p.1 "")) }
            new_iscripts).bind
          (fun iscripts => ROMReader.decodeEntriesSpec messages bank
            (firstOccPairs (seen0 ++ [a]) rest) iscripts reff1 shops1 fp1))
        rw [add_many_entry iscripts0 new_iscripts
            (iscripts0.entrypoints ++ [DEFAULT_ISCRIPT_ORDER.getD i ""]),
          add_many_entry iscripts0 new_iscripts
            (iscripts0.entrypoints ++ ((i, a) :: rest).map
              (fun p => DEFAULT_ISCRIPT_ORDER.getD p.1 ""))]
        cases ha : IScripts.add_many iscripts0 new_iscripts with
        | error e => rfl
        | ok c1 =>
          show ROMReader.readIscriptsLoop messages bank rest
              { c1 with entrypoints := (iscripts0.entrypoints ++
                [DEFAULT_ISCRIPT_ORDER.getD i ""]) } (seen0 ++ [a]) reff1
              shops1 fp1 = _
          rw [ih _ _ _ _ _ hrest]
          show ROMReader.decodeEntriesSpec messages bank _
              { c1 with entrypoints := ((iscripts0.entrypoints ++
                [DEFAULT_ISCRIPT_ORDER.getD i ""]) ++
                  rest.map (fun p => DEFAULT_ISCRIPT_ORDER.getD p.1 "")) }
              reff1 shops1 fp1 = _
          have hlist : (iscripts0.entrypoints ++
              [DEFAULT_ISCRIPT_ORDER.getD i ""]) ++
                rest.map (fun p => DEFAULT_ISCRIPT_ORDER.getD p.1 "") =
              iscripts0.entrypoints ++
                (DEFAULT_ISCRIPT_ORDER.getD i "" ::
                  rest.map (fun p => DEFAULT_ISCRIPT_ORDER.getD p.1 "")) := by
            simp [List.append_assoc]
          rw [hlist]
          rfl

def c6pairs : List (Nat × Nat) := [(0, 0x8004), (1, 0x8004)]

def c6fp : ROMIOBuf := ⟨c1file.drop 16, 4⟩

set_option maxRecDepth 4000 in
/-- Witness for `dedup_entrypoints`: two entrypoint positions holding
the same address `0x8004`. -/
theorem dedup_entrypoints_witness :
    (∀ p ∈ c6pairs, p.1 < DEFAULT_ISCRIPT_ORDER.length) ∧
      (∃ i j : Nat, i < j ∧ j < c6pairs.length ∧
        (c6pairs.getD i (0, 0)).2 = (c6pairs.getD j (0, 0)).2) ∧
      (ROMReader.readIscriptsLoop {} 0 c6pairs {} [] [] [] c6fp =
        ROMReader.decodeEntriesSpec {} 0 (firstOccPairs [] c6pairs)
          { ({} : IScripts) with entrypoints :=
              ((({} : IScripts)).entrypoints ++
                c6pairs.map (fun p => DEFAULT_ISCRIPT_ORDER.getD p.1 "")) }
          [] [] c6fp ∧
        (firstOccPairs [] c6pairs).Pairwise (fun p q => p.2 ≠ q.2)) :=
  ⟨by decide, ⟨0, 1, by decide, by decide, by decide⟩,
    dedup_entrypoints {} 0 c6pairs {} [] [] [] c6fp (by decide)
      ⟨0, 1, by decide, by decide, by decide⟩⟩
